import Mathlib

/-!
# xtcp: a forking TCP forwarder (`src/xtcp.c`)

A shallow embedding of the relay engine (`xtcp_recv`, `xtcp_send`,
`xtcp_passover`), the session launcher (`xtcp_connect`), the accept loop
(`xtcp_listen`) and the argument handling of `main`.

Conventions of the embedding.

* System calls are answered by an explicit environment: every function that
  calls the operating system takes the answers as arguments (oracles keyed by
  the request, or a script of wake-ups for a `poll` loop) and returns, next to
  its C result, the list of system calls it made, in order.
* `size_t` is a natural number reduced modulo `2 ^ 64`; `ssize_t` and `int`
  are integers.  `short` event masks are natural-number bit masks.
* Constants of `<poll.h>`, `<sys/socket.h>` and `<stdlib.h>` carry their Linux
  values.
* A `send` on a stream socket whose connection is broken raises `SIGPIPE`;
  the program leaves that signal at its default disposition and sends with
  flags 0, so the call may end the process instead of returning.
* Diagnostics written with `fprintf(stderr, ...)`, `perror` and the
  pid-stamped `printf` lines are not recorded; the three fixed `printf`
  messages that mark a decision are.
-/

set_option maxRecDepth 100000

namespace Xtcp

/-! ## Constants -/

/-- The `#define CAPACITY 512` of the source. -/
def CAPACITY : Nat := 512

/-- Number of values of a `size_t` (LP64). -/
def SIZE_MOD : Nat := 18446744073709551616

def POLLIN : Nat := 1
def POLLOUT : Nat := 4
def POLLERR : Nat := 8
def POLLHUP : Nat := 16
def POLLNVAL : Nat := 32

/-- The `#define POLLRECV POLLIN` of the source. -/
def POLLRECV : Nat := POLLIN

/-- The `#define POLLSEND POLLOUT` of the source. -/
def POLLSEND : Nat := POLLOUT

def MSG_OOB : Nat := 1
def AF_INET : Int := 2
def AF_INET6 : Int := 10
def EXIT_SUCCESS : Int := 0
def EXIT_FAILURE : Int := 1

/-- One octet, the `uint8_t` of the source. -/
abbrev Byte := Fin 256

/-! ## Data model -/

/-- The `xtcp_buffer_t` of the source: `len` and the `CAPACITY`-octet array
`dat`, kept as a list. -/
structure xtcp_buffer_t where
  len : Nat
  dat : List Byte
deriving DecidableEq

/-- The `struct pollfd` of `<poll.h>`. -/
structure pollfd where
  fd : Int
  events : Nat
  revents : Nat
deriving DecidableEq

/-- What one `recv(2)` call did: it deposited `bytes` at the address it was
given and returned their number, or returned `0` (end of stream), or returned
`-1` with `errno` set. -/
inductive RecvResult where
  | data (bytes : List Byte)
  | eof
  | error (errno : Nat)
deriving DecidableEq

/-- The value `recv(2)` returns. -/
def RecvResult.ret : RecvResult → Int
  | .data bytes => (bytes.length : Int)
  | .eof => 0
  | .error _ => -1

/-- The octets `recv(2)` deposited in the caller's memory. -/
def RecvResult.bytes : RecvResult → List Byte
  | .data bytes => bytes
  | .eof => []
  | .error _ => []

/-- What one `send(2)` call did: it returned `ret`, or it raised `SIGPIPE`,
which ends the process (the program installs no handler for it and passes no
`MSG_NOSIGNAL`). -/
inductive SendResult where
  | ret (v : Int)
  | sigpipe
deriving DecidableEq

/-- The value returned is at most `n`, when the call returns at all. -/
def SendResult.fits (r : SendResult) (n : Int) : Prop :=
  match r with
  | .ret v => v ≤ n
  | .sigpipe => True

instance SendResult.decFits (r : SendResult) (n : Int) : Decidable (r.fits n) :=
  match r with
  | .ret v => inferInstanceAs (Decidable (v ≤ n))
  | .sigpipe => isTrue trivial

/-- How a function call or a process ends: the function returns a value, the
process exits with a status, it stays blocked in `poll`, or it is ended by
`SIGPIPE`. -/
inductive Outcome where
  | returned (v : Int)
  | exited (status : Int)
  | blocked
  | killed
deriving DecidableEq

/-- System calls made by the relay engine, each with the answer it got. -/
inductive IOEvent where
  | setsockopt (fd : Int)
  | poll (events0 events1 : Nat)
  | recv (fd : Int) (remain : Nat) (ioflags : Nat) (res : RecvResult)
  | send (fd : Int) (offered : List Byte) (ioflags : Nat) (res : SendResult)
  | close (fd : Int)
deriving DecidableEq

/-- The zero-initialised buffer `{0}`. -/
def xtcp_buffer_t.zero : xtcp_buffer_t :=
  { len := 0, dat := List.replicate CAPACITY 0 }

/-- The queued octets `dat[0..len)`. -/
def xtcp_buffer_t.contents (buf : xtcp_buffer_t) : List Byte :=
  buf.dat.take buf.len

/-- Memory after `bytes` are stored at `dat + off`. -/
def writeAt (dat : List Byte) (off : Nat) (bytes : List Byte) : List Byte :=
  dat.take off ++ bytes ++ dat.drop (off + bytes.length)

/-- Memory after `memmove(dat, dat + off, n)`. -/
def memmove (dat : List Byte) (off n : Nat) : List Byte :=
  (dat.drop off).take n ++ dat.drop n

/-- The C expression `e & ~m` on a non-negative mask. -/
def clearBits (e m : Nat) : Nat := e ^^^ (e &&& m)

/-! ## `xtcp_recv` and `xtcp_send` -/

/-- The `xtcp_recv` of the source.  `os_recv remain` is the answer of
`recv(pfd->fd, buf->dat+filled, remain, ioflags)`. -/
def xtcp_recv (os_recv : Nat → RecvResult) (pfd : pollfd) (pflags : Nat)
    (buf : xtcp_buffer_t) (ioflags : Nat) : Int × xtcp_buffer_t × List IOEvent :=
  let filled := buf.len
  let remain := (SIZE_MOD + CAPACITY - filled) % SIZE_MOD
  if pfd.revents &&& pflags ≠ 0 ∧ remain ≠ 0 then
    let res := os_recv remain
    let ret := res.ret
    let dat := writeAt buf.dat filled res.bytes
    let ev := [IOEvent.recv pfd.fd remain ioflags res]
    if ret > 0 then
      (ret, { len := (buf.len + ret.toNat) % SIZE_MOD, dat := dat }, ev)
    else
      (ret, { len := buf.len, dat := dat }, ev)
  else
    (1, buf, [])

/-- The `xtcp_send` of the source.  `os_send offered` is the answer of
`send(pfd->fd, buf->dat, buf->len, ioflags)`, `offered` being `dat[0..len)`.
The value is `none` when the process was ended inside `send`. -/
def xtcp_send (os_send : List Byte → SendResult) (pfd : pollfd) (pflags : Nat)
    (buf : xtcp_buffer_t) (ioflags : Nat) : Option Int × xtcp_buffer_t × List IOEvent :=
  if (pfd.revents &&& pflags ≠ 0 ∨ ioflags &&& MSG_OOB ≠ 0) ∧ buf.len ≠ 0 then
    match os_send buf.contents with
    | .sigpipe => (none, buf, [IOEvent.send pfd.fd buf.contents ioflags SendResult.sigpipe])
    | .ret ret =>
      let ev := [IOEvent.send pfd.fd buf.contents ioflags (SendResult.ret ret)]
      if ret > 0 then
        let len := (SIZE_MOD + buf.len - ret.toNat) % SIZE_MOD
        (some ret, { len := len, dat := memmove buf.dat ret.toNat len }, ev)
      else
        (some ret, buf, ev)
  else
    (some 0, buf, [])

/-! ## One direction buffer under a sequence of calls -/

/-- One call on a direction buffer, with the answer the system gives. -/
inductive Op where
  | recv (os_recv : Nat → RecvResult) (pfd : pollfd) (pflags ioflags : Nat)
  | send (os_send : List Byte → SendResult) (pfd : pollfd) (pflags ioflags : Nat)

/-- Value (`none` when the process was ended inside the call), buffer and
system calls after one call. -/
def Op.apply (op : Op) (buf : xtcp_buffer_t) : Option Int × xtcp_buffer_t × List IOEvent :=
  match op with
  | .recv os pfd pflags ioflags =>
    (some (xtcp_recv os pfd pflags buf ioflags).1, (xtcp_recv os pfd pflags buf ioflags).2)
  | .send os pfd pflags ioflags => xtcp_send os pfd pflags buf ioflags

/-- The answer respects the request: `recv` returns at most the free space,
`send` at most `len`. -/
def Op.ok (op : Op) (buf : xtcp_buffer_t) : Prop :=
  match op with
  | .recv os _ _ _ => (os (CAPACITY - buf.len)).ret ≤ ((CAPACITY - buf.len : Nat) : Int)
  | .send os _ _ _ => (os buf.contents).fits (buf.len : Int)

/-- Run a sequence of calls, collecting the system calls made; a call that
ends the process ends the run. -/
def runOps (buf : xtcp_buffer_t) : List Op → xtcp_buffer_t × List IOEvent
  | [] => (buf, [])
  | op :: ops =>
    match (op.apply buf).1 with
    | none => (op.apply buf).2
    | some _ =>
      ((runOps (op.apply buf).2.1 ops).1,
        (op.apply buf).2.2 ++ (runOps (op.apply buf).2.1 ops).2)

/-- Every call of the run gets an answer that respects its request. -/
def OpsOk (buf : xtcp_buffer_t) : List Op → Prop
  | [] => True
  | op :: ops =>
    op.ok buf ∧
    match (op.apply buf).1 with
    | none => True
    | some _ => OpsOk (op.apply buf).2.1 ops

instance Op.decOk (op : Op) (buf : xtcp_buffer_t) : Decidable (op.ok buf) :=
  match op with
  | .recv os _ _ _ =>
    inferInstanceAs (Decidable ((os (CAPACITY - buf.len)).ret ≤ ((CAPACITY - buf.len : Nat) : Int)))
  | .send os _ _ _ => inferInstanceAs (Decidable ((os buf.contents).fits (buf.len : Int)))

instance decOpsOk : (buf : xtcp_buffer_t) → (ops : List Op) → Decidable (OpsOk buf ops)
  | _, [] => isTrue trivial
  | buf, op :: ops => by
    unfold OpsOk
    cases (op.apply buf).1 with
    | none => exact inferInstanceAs (Decidable (op.ok buf ∧ True))
    | some v =>
      have := decOpsOk (op.apply buf).2.1 ops
      exact inferInstanceAs (Decidable (op.ok buf ∧ OpsOk (op.apply buf).2.1 ops))

/-- Octets handed over by `recv`, in call order. -/
def delivered : List IOEvent → List Byte
  | [] => []
  | .recv _ _ _ res :: tr => res.bytes ++ delivered tr
  | _ :: tr => delivered tr

/-- Octets taken by `send`: the first `ret` offered octets of each successful
call, in call order. -/
def accepted : List IOEvent → List Byte
  | [] => []
  | .send _ offered _ (.ret ret) :: tr => offered.take ret.toNat ++ accepted tr
  | _ :: tr => accepted tr

/-- Shape of a buffer: the array has `CAPACITY` octets and `len` is in range. -/
def BufInv (buf : xtcp_buffer_t) : Prop :=
  buf.dat.length = CAPACITY ∧ buf.len ≤ CAPACITY


/-- A sample call sequence: three octets arrive, two are sent on. -/
def sampleOps : List Op :=
  [ Op.recv (fun _ => RecvResult.data [1, 2, 3]) { fd := 3, events := 5, revents := 1 } POLLRECV 0,
    Op.send (fun _ => SendResult.ret 2) { fd := 4, events := 5, revents := 4 } POLLSEND 0 ]

/-! ## `xtcp_passover` -/

/-- The locals `buffer[2]` and `fds[2]` of `xtcp_passover`. -/
structure PassState where
  buffer0 : xtcp_buffer_t
  buffer1 : xtcp_buffer_t
  fds0 : pollfd
  fds1 : pollfd
deriving DecidableEq

/-- The element `buffer[i]`. -/
def PassState.buffer (st : PassState) (i : Nat) : xtcp_buffer_t :=
  if i = 0 then st.buffer0 else st.buffer1

/-- The element `fds[i]`. -/
def PassState.fds (st : PassState) (i : Nat) : pollfd :=
  if i = 0 then st.fds0 else st.fds1

/-- Assignment to `buffer[i]`. -/
def PassState.setBuffer (st : PassState) (i : Nat) (b : xtcp_buffer_t) : PassState :=
  if i = 0 then { st with buffer0 := b } else { st with buffer1 := b }

/-- Assignment to `fds[i].events`. -/
def PassState.setEvents (st : PassState) (i : Nat) (e : Nat) : PassState :=
  if i = 0 then { st with fds0 := { st.fds0 with events := e } }
  else { st with fds1 := { st.fds1 with events := e } }

/-- What the system answers during one wake-up of the relay loop: the value of
`poll`, the `revents` it stores for the two endpoints, and the answers to a
`recv` or `send` on endpoint `i`. -/
structure WakeUp where
  pollRet : Int
  revents0 : Nat
  revents1 : Nat
  os_recv : Nat → Nat → RecvResult
  os_send : Nat → List Byte → SendResult

/-- Outcome of a part of the loop: the function returned, the loop goes on,
or the process was ended inside `send`; with the system calls made. -/
inductive Step where
  | done (ret : Int) (tr : List IOEvent)
  | next (st : PassState) (tr : List IOEvent)
  | killed (tr : List IOEvent)
deriving DecidableEq

/-- The system calls made in a step. -/
def Step.trace : Step → List IOEvent
  | .done _ tr => tr
  | .next _ tr => tr
  | .killed tr => tr

/-- The body of `for(i=0; i<2; i++)` in `xtcp_passover`. -/
def passover_body (w : WakeUp) (st : PassState) (i : Nat) : Step :=
  if (st.fds i).revents &&& (POLLERR ||| POLLHUP ||| POLLNVAL) ≠ 0 then
    Step.done 0 [IOEvent.close (st.fds 0).fd, IOEvent.close (st.fds 1).fd]
  else
    let j := i ^^^ 1
    let r := xtcp_recv (w.os_recv i) (st.fds i) POLLRECV (st.buffer i) 0
    let s := xtcp_send (w.os_send j) (st.fds j) POLLSEND r.2.1 0
    match s.1 with
    | none => Step.killed (r.2.2 ++ s.2.2)
    | some _ =>
      let st1 := st.setBuffer i s.2.1
      let st2 :=
        if (st1.buffer i).len = CAPACITY then
          st1.setEvents i (clearBits (st1.fds i).events POLLRECV)
        else st1.setEvents i ((st1.fds i).events ||| POLLRECV)
      let st3 :=
        if (st2.buffer i).len = 0 then
          st2.setEvents j (clearBits (st2.fds j).events POLLSEND)
        else st2.setEvents j ((st2.fds j).events ||| POLLSEND)
      Step.next st3 (r.2.2 ++ s.2.2)

/-- The loop `for(i=0; i<2; i++)` of one wake-up, `fds[..].revents` being
already stored. -/
def passover_for (w : WakeUp) (st : PassState) : Step :=
  match passover_body w st 0 with
  | .done v tr => Step.done v tr
  | .killed tr => Step.killed tr
  | .next st1 tr1 =>
    match passover_body w st1 1 with
    | .done v tr2 => Step.done v (tr1 ++ tr2)
    | .killed tr2 => Step.killed (tr1 ++ tr2)
    | .next st2 tr2 => Step.next st2 (tr1 ++ tr2)

/-- The state after `poll` stored `revents`. -/
def PassState.polled (st : PassState) (w : WakeUp) : PassState :=
  { st with fds0 := { st.fds0 with revents := w.revents0 },
            fds1 := { st.fds1 with revents := w.revents1 } }

/-- The loop `while( poll(fds, 2, -1) >= 0 )` of `xtcp_passover` against a
script of wake-ups.  The result is `blocked` when the script ends, the
function being in `poll`, and `killed` when a `send` ended the process. -/
def passover_loop (st : PassState) : List WakeUp → Outcome × List IOEvent
  | [] => (Outcome.blocked, [IOEvent.poll st.fds0.events st.fds1.events])
  | w :: ws =>
    if w.pollRet ≥ 0 then
      match passover_for w (st.polled w) with
      | .done v tr =>
        (Outcome.returned v, IOEvent.poll st.fds0.events st.fds1.events :: tr)
      | .killed tr => (Outcome.killed, IOEvent.poll st.fds0.events st.fds1.events :: tr)
      | .next st1 tr =>
        ((passover_loop st1 ws).1,
          IOEvent.poll st.fds0.events st.fds1.events :: tr ++ (passover_loop st1 ws).2)
    else (Outcome.returned (-1), [IOEvent.poll st.fds0.events st.fds1.events])

/-- The locals of `xtcp_passover` as initialised. -/
def PassState.init (inbnd upstr : Int) : PassState :=
  { buffer0 := xtcp_buffer_t.zero, buffer1 := xtcp_buffer_t.zero,
    fds0 := { fd := inbnd, events := POLLRECV ||| POLLSEND, revents := 0 },
    fds1 := { fd := upstr, events := POLLRECV ||| POLLSEND, revents := 0 } }

/-- The `xtcp_passover` of the source. -/
def xtcp_passover (inbnd upstr : Int) (script : List WakeUp) : Outcome × List IOEvent :=
  ((passover_loop (PassState.init inbnd upstr) script).1,
    IOEvent.setsockopt inbnd :: IOEvent.setsockopt upstr
      :: (passover_loop (PassState.init inbnd upstr) script).2)

/-- The locals in the middle of body `i`, after `xtcp_recv` and before
`xtcp_send`. -/
def passover_mid (w : WakeUp) (st : PassState) (i : Nat) : PassState :=
  st.setBuffer i (xtcp_recv (w.os_recv i) (st.fds i) POLLRECV (st.buffer i) 0).2.1

/-- Every state the locals go through while the script is played: at each
`poll`, in the middle of each body of the `for` loop that runs, and after it. -/
def passover_states (st : PassState) : List WakeUp → List PassState
  | [] => [st]
  | w :: ws =>
    st :: (if w.pollRet ≥ 0 then
      match passover_body w (st.polled w) 0 with
      | .done _ _ => []
      | .killed _ => [passover_mid w (st.polled w) 0]
      | .next st1 _ =>
        passover_mid w (st.polled w) 0 :: st1 :: (match passover_body w st1 1 with
          | .done _ _ => []
          | .killed _ => [passover_mid w st1 1]
          | .next st2 _ => passover_mid w st1 1 :: passover_states st2 ws)
    else [])

/-- The answers of a wake-up respect the requests: `recv` returns at most the
requested count, `send` at most the offered count. -/
def WakeUp.ok (w : WakeUp) : Prop :=
  (∀ i n, (w.os_recv i n).ret ≤ (n : Int)) ∧
  (∀ i offered, (w.os_send i offered).fits (offered.length : Int))

/-- The descriptors closed, in order. -/
def closedFds : List IOEvent → List Int
  | [] => []
  | .close fd :: tr => fd :: closedFds tr
  | _ :: tr => closedFds tr

/-- Number of `poll` calls. -/
def pollCount : List IOEvent → Nat
  | [] => 0
  | .poll _ _ :: tr => pollCount tr + 1
  | _ :: tr => pollCount tr

/-- Both buffers are within capacity. -/
def LenInv (st : PassState) : Prop :=
  st.buffer0.len ≤ CAPACITY ∧ st.buffer1.len ≤ CAPACITY

instance LenInv.dec (st : PassState) : Decidable (LenInv st) :=
  inferInstanceAs (Decidable (st.buffer0.len ≤ CAPACITY ∧ st.buffer1.len ≤ CAPACITY))

/-! ## Sample wake-ups -/

/-- A plain wake-up: endpoint 0 readable, endpoint 1 writable; `recv` hands
over up to three octets, `send` takes up to two. -/
def sampleWake : WakeUp :=
  { pollRet := 1, revents0 := POLLIN, revents1 := POLLOUT,
    os_recv := fun _ n => RecvResult.data (List.replicate (min n 3) 7),
    os_send := fun _ offered => SendResult.ret ((min offered.length 2 : Nat) : Int) }

/-- The state of a session on descriptors 3 and 4 after `sampleWake`. -/
def sampleState : PassState :=
  (passover_states (PassState.init 3 4) [sampleWake]).getLastD (PassState.init 3 4)

/-- A wake-up on which only endpoint 1 hung up. -/
def hangupWake : WakeUp :=
  { pollRet := 1, revents0 := 0, revents1 := POLLHUP,
    os_recv := fun _ _ => RecvResult.eof, os_send := fun _ _ => SendResult.ret 0 }

/-- A wake-up on which endpoint 0 is readable while endpoint 1 reports an
error and is writable. -/
def errorAtPeerWake : WakeUp :=
  { pollRet := 1, revents0 := POLLIN, revents1 := POLLERR ||| POLLOUT,
    os_recv := fun _ _ => RecvResult.data [1, 2, 3],
    os_send := fun _ offered => SendResult.ret (offered.length : Int) }

/-- The wake-up `errorAtPeerWake` with the answer a kernel gives to a `send`
on a socket with a pending error: -1. -/
def errorAtPeerWakeFailing : WakeUp :=
  { pollRet := 1, revents0 := POLLIN, revents1 := POLLERR ||| POLLOUT,
    os_recv := fun _ _ => RecvResult.data [1, 2, 3],
    os_send := fun _ _ => SendResult.ret (-1) }

/-- A wake-up on which three octets arrive from endpoint 0 and endpoint 1,
writable, takes two of them. -/
def partialSendWake : WakeUp :=
  { pollRet := 2, revents0 := POLLIN, revents1 := POLLOUT,
    os_recv := fun _ _ => RecvResult.data [1, 2, 3],
    os_send := fun _ _ => SendResult.ret 2 }

/-- The wake-up that follows when the peer of endpoint 1 has closed and reset
the connection: two more octets arrive from endpoint 0, endpoint 1 reports
`POLLIN | POLLOUT | POLLERR | POLLHUP` and a `send` on it raises `SIGPIPE`. -/
def brokenPipeWake : WakeUp :=
  { pollRet := 2, revents0 := POLLIN,
    revents1 := POLLIN ||| POLLOUT ||| POLLERR ||| POLLHUP,
    os_recv := fun _ _ => RecvResult.data [4, 5],
    os_send := fun _ _ => SendResult.sigpipe }

/-- A wake-up on which endpoint 0 is readable and `recv` meets end of stream. -/
def eofWake : WakeUp :=
  { pollRet := 1, revents0 := POLLIN, revents1 := 0,
    os_recv := fun _ _ => RecvResult.eof, os_send := fun _ _ => SendResult.ret 0 }

/-- A wake-up on which endpoint 0 is readable and `recv` fails (`ECONNRESET`). -/
def recvErrorWake : WakeUp :=
  { pollRet := 1, revents0 := POLLIN, revents1 := 0,
    os_recv := fun _ _ => RecvResult.error 104, os_send := fun _ _ => SendResult.ret 0 }

/-- A wake-up on which three octets arrive from endpoint 0 and the `send` to
endpoint 1 fails. -/
def sendErrorWake : WakeUp :=
  { pollRet := 1, revents0 := POLLIN, revents1 := POLLOUT,
    os_recv := fun _ _ => RecvResult.data [1, 2, 3], os_send := fun _ _ => SendResult.ret (-1) }

/-! ## `xtcp_connect` -/

/-- The fixed `printf` messages that mark a decision. -/
inductive Diag where
  | no_connectable_peer
  | ignoring_unneeded_arguments
  | not_enough_arguments
deriving DecidableEq

/-- One entry of the list `addrs_conn`, with the answers the system gives to
the `socket` and `connect` calls made for it. -/
structure ConnCandidate where
  ai_family : Int
  socketRet : Int
  connectRet : Int
deriving DecidableEq

/-- What a session process does, in order.  `passover` stands for the call
`xtcp_passover(inbnd, upstr)`, with how it ended and the system calls it
made. -/
inductive ConnEvent where
  | socket (ai_family : Int) (ret : Int)
  | connect (fd : Int) (ret : Int)
  | close (fd : Int)
  | passover (inbnd upstr : Int) (ret : Outcome) (tr : List IOEvent)
  | printf (msg : Diag)
  | exit (status : Int)
deriving DecidableEq

/-- The `xtcp_connect` of the source, run over the list `addrs_conn`; `script`
holds the wake-ups the relay loop will see.  The function never returns: the
process exits with a status, stays blocked in `poll`, or is ended by
`SIGPIPE`. -/
def xtcp_connect (fd_inbnd : Int) (script : List WakeUp) :
    List ConnCandidate → Outcome × List ConnEvent
  | [] => (Outcome.exited EXIT_FAILURE,
      [ConnEvent.printf Diag.no_connectable_peer, ConnEvent.exit EXIT_FAILURE])
  | addr :: next =>
    if addr.ai_family ≠ AF_INET ∧ addr.ai_family ≠ AF_INET6 then
      xtcp_connect fd_inbnd script next
    else
      let fd := addr.socketRet
      if fd = -1 then
        ((xtcp_connect fd_inbnd script next).1,
          ConnEvent.socket addr.ai_family fd :: (xtcp_connect fd_inbnd script next).2)
      else
        let ret := addr.connectRet
        if ret = -1 then
          ((xtcp_connect fd_inbnd script next).1,
            ConnEvent.socket addr.ai_family fd :: ConnEvent.connect fd ret
              :: ConnEvent.close fd :: (xtcp_connect fd_inbnd script next).2)
        else
          let r := xtcp_passover fd_inbnd fd script
          match r.1 with
          | Outcome.returned ret1 =>
            if ret1 = -1 then
              (Outcome.exited EXIT_FAILURE,
                [ConnEvent.socket addr.ai_family fd, ConnEvent.connect fd ret,
                  ConnEvent.passover fd_inbnd fd (Outcome.returned ret1) r.2,
                  ConnEvent.exit EXIT_FAILURE])
            else
              (Outcome.exited EXIT_SUCCESS,
                [ConnEvent.socket addr.ai_family fd, ConnEvent.connect fd ret,
                  ConnEvent.passover fd_inbnd fd (Outcome.returned ret1) r.2,
                  ConnEvent.exit EXIT_SUCCESS])
          | Outcome.exited status =>
            (Outcome.exited status,
              [ConnEvent.socket addr.ai_family fd, ConnEvent.connect fd ret,
                ConnEvent.passover fd_inbnd fd (Outcome.exited status) r.2])
          | Outcome.blocked =>
            (Outcome.blocked,
              [ConnEvent.socket addr.ai_family fd, ConnEvent.connect fd ret,
                ConnEvent.passover fd_inbnd fd Outcome.blocked r.2])
          | Outcome.killed =>
            (Outcome.killed,
              [ConnEvent.socket addr.ai_family fd, ConnEvent.connect fd ret,
                ConnEvent.passover fd_inbnd fd Outcome.killed r.2])

/-- The candidate is an Internet address for which `socket` and `connect`
both succeed. -/
def ConnCandidate.connects (c : ConnCandidate) : Prop :=
  (c.ai_family = AF_INET ∨ c.ai_family = AF_INET6) ∧ c.socketRet ≠ -1 ∧ c.connectRet ≠ -1

instance ConnCandidate.decConnects (c : ConnCandidate) : Decidable c.connects :=
  inferInstanceAs (Decidable
    ((c.ai_family = AF_INET ∨ c.ai_family = AF_INET6) ∧ c.socketRet ≠ -1 ∧ c.connectRet ≠ -1))

/-- What is seen of a candidate that does not connect: nothing for an address
that is not an Internet address, the failed `socket` call, or the `socket`
call, the failed `connect` and the `close` of that socket. -/
def failedAttempt (c : ConnCandidate) : List ConnEvent :=
  if c.ai_family ≠ AF_INET ∧ c.ai_family ≠ AF_INET6 then []
  else if c.socketRet = -1 then [ConnEvent.socket c.ai_family c.socketRet]
  else [ConnEvent.socket c.ai_family c.socketRet, ConnEvent.connect c.socketRet c.connectRet,
    ConnEvent.close c.socketRet]

/-- The failed attempts of a list of candidates, in list order. -/
def failedAttempts : List ConnCandidate → List ConnEvent
  | [] => []
  | c :: cs => failedAttempt c ++ failedAttempts cs

/-- The descriptor pairs handed to `xtcp_passover`, in order. -/
def passoverCalls : List ConnEvent → List (Int × Int)
  | [] => []
  | .passover inbnd upstr _ _ :: tr => (inbnd, upstr) :: passoverCalls tr
  | _ :: tr => passoverCalls tr

/-- The exit status `xtcp_connect` derives from the value of `xtcp_passover`. -/
def relayExit (ret : Int) : Int :=
  if ret = -1 then EXIT_FAILURE else EXIT_SUCCESS

/-- What follows a relay that returned `ret`, or nothing when it never
returns. -/
def relayExitEvents : Outcome → List ConnEvent
  | Outcome.returned ret => [ConnEvent.exit (relayExit ret)]
  | _ => []

/-- How the session process ends, from how `xtcp_passover` ended: a returned
value becomes the exit status. -/
def sessionOutcome : Outcome → Outcome
  | Outcome.returned ret => Outcome.exited (if ret = -1 then EXIT_FAILURE else EXIT_SUCCESS)
  | o => o

/-- Candidates before, at and after the first one that connects. -/
def samplePre : List ConnCandidate :=
  [{ ai_family := 2, socketRet := 5, connectRet := -1 },
   { ai_family := 1, socketRet := 0, connectRet := 0 },
   { ai_family := 10, socketRet := -1, connectRet := 0 }]

def sampleCand : ConnCandidate := { ai_family := 10, socketRet := 6, connectRet := 0 }

def samplePost : List ConnCandidate := [{ ai_family := 2, socketRet := 7, connectRet := 0 }]

/-! ## `xtcp_listen` -/

/-- One entry of the list `addrs_bnd`, with the answers the system gives to
the `socket`, `bind`, `getsockname` and `listen` calls made for it. -/
structure BindCandidate where
  ai_family : Int
  socketRet : Int
  bindRet : Int
  getsocknameRet : Int
  listenRet : Int
deriving DecidableEq

/-- What the listening process does, in order.  `session` stands for the call
`xtcp_connect(fd)` in a forked child, with how the child ended and what it
did. -/
inductive ListenEvent where
  | socket (ai_family : Int) (ret : Int)
  | bind (fd : Int) (ret : Int)
  | getsockname (fd : Int) (ret : Int)
  | listen (fd : Int) (backlog : Int) (ret : Int)
  | close (fd : Int)
  | poll (nfds : Nat)
  | accept (fd : Int) (ret : Int)
  | fork (ret : Int)
  | session (fd : Int) (status : Outcome) (tr : List ConnEvent)
deriving DecidableEq

/-- The first loop of `xtcp_listen`, over `addrs_bnd`; the pair is
`(fd_listen, fd_listen6)`. -/
def listen_setup : List BindCandidate → Int × Int → (Int × Int) × List ListenEvent
  | [], s => (s, [])
  | addr :: next, (fd_listen, fd_listen6) =>
    if addr.ai_family ≠ AF_INET ∧ addr.ai_family ≠ AF_INET6 then
      listen_setup next (fd_listen, fd_listen6)
    else if (if addr.ai_family = AF_INET then fd_listen else fd_listen6) ≥ 0 then
      listen_setup next (fd_listen, fd_listen6)
    else
      let fd := addr.socketRet
      if fd = -1 then
        ((listen_setup next (fd_listen, fd_listen6)).1,
          ListenEvent.socket addr.ai_family fd :: (listen_setup next (fd_listen, fd_listen6)).2)
      else if addr.bindRet = -1 then
        ((listen_setup next (fd_listen, fd_listen6)).1,
          ListenEvent.socket addr.ai_family fd :: ListenEvent.bind fd addr.bindRet
            :: ListenEvent.close fd :: (listen_setup next (fd_listen, fd_listen6)).2)
      else if addr.listenRet = -1 then
        ((listen_setup next (fd_listen, fd_listen6)).1,
          ListenEvent.socket addr.ai_family fd :: ListenEvent.bind fd addr.bindRet
            :: ListenEvent.getsockname fd addr.getsocknameRet
            :: ListenEvent.listen fd 0 addr.listenRet
            :: ListenEvent.close fd :: (listen_setup next (fd_listen, fd_listen6)).2)
      else
        let s := if addr.ai_family = AF_INET then (fd, fd_listen6) else (fd_listen, fd)
        ((listen_setup next s).1,
          ListenEvent.socket addr.ai_family fd :: ListenEvent.bind fd addr.bindRet
            :: ListenEvent.getsockname fd addr.getsocknameRet
            :: ListenEvent.listen fd 0 addr.listenRet :: (listen_setup next s).2)

/-- The array `fds[0..nfds)` that `xtcp_listen` fills from `fd_listen` and
`fd_listen6`. -/
def listen_fds (s : Int × Int) : List pollfd :=
  (if s.1 ≥ 0 then [{ fd := s.1, events := POLLIN, revents := 0 }] else [])
    ++ (if s.2 ≥ 0 then [{ fd := s.2, events := POLLIN, revents := 0 }] else [])

/-- What the system answers during one wake-up of the accept loop: the value
of `poll`, the `revents` it stores for listener `i`, the answers to the
`accept` on listener `i` and to the `fork` that follows it, and, for the child
of that `fork`, the connect candidates with their answers and the wake-ups of
its relay loop. -/
structure ListenWake where
  pollRet : Int
  revents : Nat → Nat
  acceptRet : Nat → Int
  forkRet : Nat → Int
  childCands : Nat → List ConnCandidate
  childScript : Nat → List WakeUp

/-- How the `for` loop of one wake-up ends: `xtcp_listen` returns, the process
(a child) ends, or the loop is left with the count `x`. -/
inductive Scan where
  | returned (v : Int)
  | child (o : Outcome)
  | left (x : Int)
deriving DecidableEq

/-- The calls `close(fds[j].fd)` for `j = 0 .. nfds-1`. -/
def closeAll : List pollfd → List ListenEvent
  | [] => []
  | pfd :: fds => ListenEvent.close pfd.fd :: closeAll fds

/-- The loop `for(i=0; i<nfds; i++)` of `xtcp_listen` from index `i` on, `rest`
being `fds[i..nfds)` and `x` the count so far. -/
def listen_for (w : ListenWake) (fds : List pollfd) :
    Nat → List pollfd → Int → Scan × List ListenEvent
  | _, [], x => (Scan.left x, [])
  | i, pfd :: rest, x =>
    if w.revents i &&& POLLIN = 0 then listen_for w fds (i + 1) rest x
    else
      let x1 := x + 1
      let fd := w.acceptRet i
      if fd = -1 then
        ((listen_for w fds (i + 1) rest x1).1,
          ListenEvent.accept pfd.fd fd :: (listen_for w fds (i + 1) rest x1).2)
      else
        let pid := w.forkRet i
        if pid = -1 then
          (Scan.returned (-1), [ListenEvent.accept pfd.fd fd, ListenEvent.fork pid])
        else if pid = 0 then
          let r := xtcp_connect fd (w.childScript i) (w.childCands i)
          (Scan.child r.1,
            ListenEvent.accept pfd.fd fd :: ListenEvent.fork pid
              :: closeAll fds ++ [ListenEvent.session fd r.1 r.2])
        else
          (Scan.left x1,
            [ListenEvent.accept pfd.fd fd, ListenEvent.fork pid, ListenEvent.close fd])

/-- The loop `while( poll(fds, nfds, -1) >= 0 )` of `xtcp_listen` against a
script of wake-ups, up to the `return -1` that follows it. -/
def accept_loop (fds : List pollfd) : List ListenWake → Outcome × List ListenEvent
  | [] => (Outcome.blocked, [ListenEvent.poll fds.length])
  | w :: ws =>
    if w.pollRet ≥ 0 then
      match listen_for w fds 0 fds 0 with
      | (Scan.returned v, tr) => (Outcome.returned v, ListenEvent.poll fds.length :: tr)
      | (Scan.child o, tr) => (o, ListenEvent.poll fds.length :: tr)
      | (Scan.left x, tr) =>
        if x = 0 then (Outcome.returned (-1), ListenEvent.poll fds.length :: tr)
        else ((accept_loop fds ws).1,
          ListenEvent.poll fds.length :: tr ++ (accept_loop fds ws).2)
    else (Outcome.returned (-1), [ListenEvent.poll fds.length])

/-- The `xtcp_listen` of the source. -/
def xtcp_listen (addrs_bnd : List BindCandidate) (script : List ListenWake) :
    Outcome × List ListenEvent :=
  let s := listen_setup addrs_bnd (-1, -1)
  let r := accept_loop (listen_fds s.1) script
  (r.1, s.2 ++ r.2)

/-! ## `main` -/

/-- The globals `bndaddr`, `bndserv`, `connaddr`, `connserv` (`none` is `NULL`)
and the local `argc` after the argument handling of `main`. -/
structure Args where
  bndaddr : Option String
  bndserv : Option String
  connaddr : Option String
  connserv : Option String
  argc : Nat
deriving DecidableEq

/-- What `main` does, in order.  `getaddrinfo` stands for a call of
`xtcp_getaddrinfo`, `listen` for the call of `xtcp_listen`. -/
inductive MainEvent where
  | printf (msg : Diag)
  | getaddrinfo (addr serv : Option String) (ret : Int)
  | freeaddrinfo
  | listen (o : Outcome) (tr : List ListenEvent)
deriving DecidableEq

/-- What the system answers to `main`: the values of the two `getaddrinfo`
calls, the bind candidates with their answers, and the wake-ups of the accept
loop. -/
structure MainEnv where
  connInfo : Int
  bndInfo : Int
  addrs_bnd : List BindCandidate
  script : List ListenWake

/-- The `xtcp_getaddrinfo` of the source, as far as its value goes: `ret` is
what `getaddrinfo` returned. -/
def xtcp_getaddrinfo (ret : Int) : Int :=
  if ret ≠ 0 then -1 else 0

/-- The argument handling of `main`, from `if( argc > 5 )` to the assignment of
`connaddr` and `connserv`.  `argv` is the whole vector, program name first;
`argv[k]` past its end reads as `NULL`. -/
def main_args (argv : List String) : Args × List MainEvent :=
  let argc0 := argv.length
  let ev := if argc0 > 5 then [MainEvent.printf Diag.ignoring_unneeded_arguments] else []
  let argc1 := if argc0 > 5 then 5 else argc0
  let bndaddr := if argc1 = 5 then argv.get? 1 else none
  let argv2 := if argc1 = 5 then argv.drop 1 else argv
  let argc2 := if argc1 = 5 then argc1 - 1 else argc1
  let bndserv := if argc2 = 4 then argv2.get? 1 else none
  let argv3 := if argc2 = 4 then argv2.drop 1 else argv2
  let argc3 := if argc2 = 4 then argc2 - 1 else argc2
  let connaddr := if argc3 = 3 then argv3.get? 1 else none
  let connserv := if argc3 = 3 then argv3.get? 2 else none
  ({ bndaddr := bndaddr, bndserv := bndserv, connaddr := connaddr, connserv := connserv,
     argc := argc3 }, ev)

/-- The rest of `main`, from `if( argc < 3 )` on, given the globals and `argc`
left by the argument handling. -/
def main_run (a : Args) (env : MainEnv) : Outcome × List MainEvent :=
  if a.argc < 3 then
    (Outcome.returned EXIT_FAILURE, [MainEvent.printf Diag.not_enough_arguments])
  else
    let ret := xtcp_getaddrinfo env.connInfo
    if ret = -1 then
      (Outcome.returned EXIT_FAILURE, [MainEvent.getaddrinfo a.connaddr a.connserv ret])
    else
      let ret2 := xtcp_getaddrinfo env.bndInfo
      if ret2 = -1 then
        (Outcome.returned EXIT_FAILURE,
          [MainEvent.getaddrinfo a.connaddr a.connserv ret,
            MainEvent.getaddrinfo a.bndaddr a.bndserv ret2, MainEvent.freeaddrinfo])
      else
        let r := xtcp_listen env.addrs_bnd env.script
        let ev := [MainEvent.getaddrinfo a.connaddr a.connserv ret,
            MainEvent.getaddrinfo a.bndaddr a.bndserv ret2, MainEvent.listen r.1 r.2]
        match r.1 with
        | Outcome.returned ret3 =>
          if ret3 = -1 then (Outcome.returned EXIT_FAILURE, ev)
          else (Outcome.returned EXIT_SUCCESS, ev)
        | Outcome.exited status => (Outcome.exited status, ev)
        | Outcome.blocked => (Outcome.blocked, ev)
        | Outcome.killed => (Outcome.killed, ev)

/-- The `main` of the source: the argument handling, then the rest. -/
def main (argv : List String) (env : MainEnv) : Outcome × List MainEvent :=
  ((main_run (main_args argv).1 env).1,
    (main_args argv).2 ++ (main_run (main_args argv).1 env).2)

/-- The address and service of each `xtcp_getaddrinfo` call, in order. -/
def resolved : List MainEvent → List (Option String × Option String)
  | [] => []
  | .getaddrinfo addr serv _ :: tr => (addr, serv) :: resolved tr
  | _ :: tr => resolved tr

/-- The wake-up keeps the accept loop going: `poll` succeeded and the `for`
loop was left with `x` not zero, in the listening process. -/
def ListenWake.continues (w : ListenWake) (fds : List pollfd) : Prop :=
  w.pollRet ≥ 0 ∧
  match (listen_for w fds 0 fds 0).1 with
  | Scan.left x => x ≠ 0
  | _ => False

instance ListenWake.decContinues (w : ListenWake) (fds : List pollfd) :
    Decidable (w.continues fds) := by
  unfold ListenWake.continues
  cases (listen_for w fds 0 fds 0).1 <;> dsimp only <;> infer_instance

/-- A wake-up on which the only listener reports an error and is not
readable. -/
def idleWake : ListenWake :=
  { pollRet := 1, revents := fun _ => POLLERR, acceptRet := fun _ => -1,
    forkRet := fun _ => -1, childCands := fun _ => [], childScript := fun _ => [] }

/-- A wake-up on which every listener is readable, every `accept` succeeds
(descriptor `7 + i` for listener `i`) and `fork` returns the child's pid to the
listening process. -/
def busyWake : ListenWake :=
  { pollRet := 2, revents := (fun _ => POLLIN), acceptRet := (fun i => 7 + (i : Int)),
    forkRet := (fun i => 100 + (i : Int)), childCands := (fun _ => []),
    childScript := (fun _ => []) }

/-- An IPv4 and an IPv6 bind candidate, both set up without error on
descriptors 3 and 4. -/
def dualStack : List BindCandidate :=
  [{ ai_family := 2, socketRet := 3, bindRet := 0, getsocknameRet := 0, listenRet := 0 },
   { ai_family := 10, socketRet := 4, bindRet := 0, getsocknameRet := 0, listenRet := 0 }]

/-- Both resolutions succeed, one IPv4 listener on descriptor 3, one
connection is accepted and then a wake-up comes with no listener readable. -/
def guardEnv : MainEnv :=
  { connInfo := 0, bndInfo := 0,
    addrs_bnd := dualStack.take 1, script := [busyWake, idleWake] }

/-- The `accept` calls made on the listeners `fds[i..]` that are readable, in
index order. -/
def acceptsOf (w : ListenWake) : Nat → List pollfd → List ListenEvent
  | _, [] => []
  | i, pfd :: rest =>
    (if w.revents i &&& POLLIN = 0 then []
      else [ListenEvent.accept pfd.fd (w.acceptRet i)]) ++ acceptsOf w (i + 1) rest

/-- Number of `accept` calls. -/
def acceptCount : List ListenEvent → Nat
  | [] => 0
  | .accept _ _ :: tr => acceptCount tr + 1
  | _ :: tr => acceptCount tr

/-- Number of `fork` calls. -/
def forkCount : List ListenEvent → Nat
  | [] => 0
  | .fork _ :: tr => forkCount tr + 1
  | _ :: tr => forkCount tr

/-- Number of `accept` calls on the listening descriptor `fd`. -/
def acceptsOn (fd : Int) : List ListenEvent → Nat
  | [] => 0
  | .accept l _ :: tr => (if l = fd then 1 else 0) + acceptsOn fd tr
  | _ :: tr => acceptsOn fd tr

/-- A program name, a command line that is too short, and one with the two
mandatory arguments. -/
def progName : String := "xtcp"

def shortArgs : List String := ["host"]

def sampleArgv : List String := ["xtcp", "host", "80"]

/-- A wake-up like `busyWake` on which the `accept` on listener 0 fails. -/
def firstAcceptFailsWake : ListenWake :=
  { pollRet := 2, revents := (fun _ => POLLIN),
    acceptRet := (fun i => if i = 0 then -1 else 7 + (i : Int)),
    forkRet := (fun i => 100 + (i : Int)), childCands := (fun _ => []),
    childScript := (fun _ => []) }
/-! ## Lemmas on `xtcp_recv` and `xtcp_send` -/

theorem delivered_append (a b : List IOEvent) :
    delivered (a ++ b) = delivered a ++ delivered b := by
  induction a with
  | nil => rfl
  | cons e a ih => cases e <;> simp [delivered, ih]

theorem accepted_append (a b : List IOEvent) :
    accepted (a ++ b) = accepted a ++ accepted b := by
  induction a with
  | nil => rfl
  | cons e a ih =>
    cases e with
    | send fd offered fl res => cases res <;> simp [accepted, ih]
    | setsockopt fd => simp [accepted, ih]
    | poll e0 e1 => simp [accepted, ih]
    | recv fd n fl res => simp [accepted, ih]
    | close fd => simp [accepted, ih]

theorem recvResult_bytes_length (res : RecvResult) (h : 0 < res.ret) :
    (res.bytes.length : Int) = res.ret := by
  cases res <;> simp_all [RecvResult.ret, RecvResult.bytes]

theorem recvResult_bytes_nil (res : RecvResult) (h : ¬ 0 < res.ret) :
    res.bytes = [] := by
  cases res with
  | data bytes =>
    simp only [RecvResult.ret, RecvResult.bytes] at *
    cases bytes with
    | nil => rfl
    | cons b bs => simp at h
  | eof => rfl
  | error e => rfl

theorem writeAt_length (dat : List Byte) (off : Nat) (bytes : List Byte)
    (h : off + bytes.length ≤ dat.length) :
    (writeAt dat off bytes).length = dat.length := by
  simp [writeAt]; omega

theorem writeAt_take (dat : List Byte) (off : Nat) (bytes : List Byte)
    (h : off ≤ dat.length) :
    (writeAt dat off bytes).take (off + bytes.length) = dat.take off ++ bytes := by
  have h1 : (dat.take off ++ bytes).length = off + bytes.length := by
    simp [Nat.min_eq_left h]
  unfold writeAt
  rw [← h1, List.take_left]

theorem writeAt_nil (dat : List Byte) (off : Nat) : writeAt dat off [] = dat := by
  simp [writeAt]

theorem memmove_length (dat : List Byte) (off n : Nat)
    (h : off + n ≤ dat.length) : (memmove dat off n).length = dat.length := by
  simp [memmove]; omega

theorem memmove_take (dat : List Byte) (k len : Nat)
    (hl : len ≤ dat.length) :
    (memmove dat k (len - k)).take (len - k) = (dat.take len).drop k := by
  have h1 : ((dat.drop k).take (len - k)).length = len - k := by
    simp; omega
  unfold memmove
  rw [List.take_append_of_le_length (by omega), List.take_of_length_le (by omega),
    List.drop_take]

theorem remain_eq (len : Nat) (h : len ≤ CAPACITY) :
    (SIZE_MOD + CAPACITY - len) % SIZE_MOD = CAPACITY - len := by
  unfold SIZE_MOD CAPACITY at *; omega

/-- Effect of `xtcp_recv` on a well-shaped buffer when the answer fits. -/
theorem xtcp_recv_spec (os : Nat → RecvResult) (pfd : pollfd) (pflags ioflags : Nat)
    (buf : xtcp_buffer_t) (hb : BufInv buf)
    (hos : (os (CAPACITY - buf.len)).ret ≤ ((CAPACITY - buf.len : Nat) : Int)) :
    BufInv (xtcp_recv os pfd pflags buf ioflags).2.1 ∧
    (xtcp_recv os pfd pflags buf ioflags).2.1.contents
      = buf.contents ++ delivered (xtcp_recv os pfd pflags buf ioflags).2.2 ∧
    (xtcp_recv os pfd pflags buf ioflags).2.1.len
      = buf.len + (delivered (xtcp_recv os pfd pflags buf ioflags).2.2).length ∧
    accepted (xtcp_recv os pfd pflags buf ioflags).2.2 = [] := by
  obtain ⟨hd, hl⟩ := hb
  unfold xtcp_recv
  simp only [remain_eq buf.len hl]
  split
  · by_cases hr : (os (CAPACITY - buf.len)).ret > 0
    · have hlen := recvResult_bytes_length _ hr
      have hfit : buf.len + (os (CAPACITY - buf.len)).bytes.length ≤ CAPACITY := by omega
      have htn : (os (CAPACITY - buf.len)).ret.toNat
          = (os (CAPACITY - buf.len)).bytes.length := by omega
      have hmod : (buf.len + (os (CAPACITY - buf.len)).bytes.length) % SIZE_MOD
          = buf.len + (os (CAPACITY - buf.len)).bytes.length := by
        unfold SIZE_MOD CAPACITY at *; omega
      simp only [hr, if_true, htn, hmod]
      refine ⟨⟨?_, hfit⟩, ?_, ?_, ?_⟩
      · rw [writeAt_length _ _ _ (by omega)]; exact hd
      · simp only [xtcp_buffer_t.contents, delivered, List.append_nil]
        rw [writeAt_take _ _ _ (by omega)]
      · simp [delivered]
      · simp [accepted]
    · have hnil := recvResult_bytes_nil _ hr
      simp only [hr, if_false, hnil, writeAt_nil]
      refine ⟨⟨hd, hl⟩, ?_, ?_, ?_⟩
      · simp [delivered, hnil]
      · simp [delivered, hnil]
      · simp [accepted]
  · exact ⟨⟨hd, hl⟩, by simp [delivered], by simp [delivered], by simp [accepted]⟩

/-- Effect of `xtcp_send` on a well-shaped buffer when the answer fits. -/
theorem xtcp_send_spec (os : List Byte → SendResult) (pfd : pollfd) (pflags ioflags : Nat)
    (buf : xtcp_buffer_t) (hb : BufInv buf) (hos : (os buf.contents).fits (buf.len : Int)) :
    BufInv (xtcp_send os pfd pflags buf ioflags).2.1 ∧
    accepted (xtcp_send os pfd pflags buf ioflags).2.2
        ++ (xtcp_send os pfd pflags buf ioflags).2.1.contents = buf.contents ∧
    (xtcp_send os pfd pflags buf ioflags).2.1.len
      + (accepted (xtcp_send os pfd pflags buf ioflags).2.2).length = buf.len ∧
    delivered (xtcp_send os pfd pflags buf ioflags).2.2 = [] := by
  obtain ⟨hd, hl⟩ := hb
  have hcl : buf.contents.length = buf.len := by
    simp [xtcp_buffer_t.contents]; omega
  unfold xtcp_send
  split
  · cases hres : os buf.contents with
    | sigpipe =>
      exact ⟨⟨hd, hl⟩, by simp [accepted], by simp [accepted], by simp [delivered]⟩
    | ret v =>
      rw [hres] at hos
      have hv : v ≤ (buf.len : Int) := hos
      dsimp only
      by_cases hr : v > 0
      · have hk : v.toNat ≤ buf.len := by omega
        have hmod : (SIZE_MOD + buf.len - v.toNat) % SIZE_MOD = buf.len - v.toNat := by
          unfold SIZE_MOD CAPACITY at *; omega
        simp only [hr, if_true, hmod]
        refine ⟨⟨?_, by show buf.len - v.toNat ≤ CAPACITY; omega⟩, ?_, ?_, ?_⟩
        · rw [memmove_length _ _ _ (by omega)]; exact hd
        · simp only [xtcp_buffer_t.contents, accepted, List.append_nil]
          rw [memmove_take _ _ _ (by omega)]
          exact List.take_append_drop _ _
        · simp [accepted, hcl]; omega
        · simp [delivered]
      · have h0 : v.toNat = 0 := by omega
        simp only [hr, if_false]
        refine ⟨⟨hd, hl⟩, ?_, ?_, ?_⟩
        · simp [accepted, h0]
        · simp [accepted, h0]
        · simp [delivered]
  · exact ⟨⟨hd, hl⟩, by simp [accepted], by simp [accepted], by simp [delivered]⟩

theorem bufInv_zero : BufInv xtcp_buffer_t.zero := by
  simp [BufInv, xtcp_buffer_t.zero]

theorem op_apply_spec (op : Op) (buf : xtcp_buffer_t) (hb : BufInv buf) (hok : op.ok buf) :
    BufInv (op.apply buf).2.1 ∧
    accepted (op.apply buf).2.2 ++ (op.apply buf).2.1.contents
      = buf.contents ++ delivered (op.apply buf).2.2 := by
  cases op with
  | recv os pfd pflags ioflags =>
    obtain ⟨h1, h2, _, h4⟩ := xtcp_recv_spec os pfd pflags ioflags buf hb hok
    exact ⟨h1, by simp only [Op.apply]; rw [h4, h2]; rfl⟩
  | send os pfd pflags ioflags =>
    obtain ⟨h1, h2, _, h4⟩ := xtcp_send_spec os pfd pflags ioflags buf hb hok
    exact ⟨h1, by simp only [Op.apply]; rw [h4, h2]; simp⟩

theorem runOps_spec (ops : List Op) :
    ∀ buf : xtcp_buffer_t, BufInv buf → OpsOk buf ops →
      BufInv (runOps buf ops).1 ∧
      accepted (runOps buf ops).2 ++ (runOps buf ops).1.contents
        = buf.contents ++ delivered (runOps buf ops).2 := by
  induction ops with
  | nil => intro buf hb _; exact ⟨hb, by simp [runOps, accepted, delivered]⟩
  | cons op ops ih =>
    intro buf hb hok
    obtain ⟨h1, h2⟩ := op_apply_spec op buf hb hok.1
    have hok2 := hok.2
    simp only [runOps]
    cases hv : (op.apply buf).1 with
    | none => exact ⟨h1, h2⟩
    | some v =>
      rw [hv] at hok2
      obtain ⟨h3, h4⟩ := ih (op.apply buf).2.1 h1 hok2
      refine ⟨h3, ?_⟩
      simp only [accepted_append, delivered_append, List.append_assoc]
      rw [h4, ← List.append_assoc, h2, List.append_assoc]

/-- C1. FIFO byte fidelity of one direction buffer: after any sequence of
`xtcp_recv` and `xtcp_send` calls from the empty buffer in which every `recv`
answer is at most the free space and every `send` answer at most `len`, the
octets taken by `send` followed by the queued octets `dat[0..len)` are the
octets handed over by `recv`, in order.  On such a buffer a send that returns
`k` with `0 < k ≤ len` leaves the old contents without their first `k` octets
and `len` lowered by `k`, and a `recv` call that hands over `bytes` fitting the
free space leaves the old contents followed by `bytes`. -/
theorem fifo_byte_fidelity (ops : List Op) (h : OpsOk xtcp_buffer_t.zero ops) :
    accepted (runOps xtcp_buffer_t.zero ops).2 ++ (runOps xtcp_buffer_t.zero ops).1.contents
      = delivered (runOps xtcp_buffer_t.zero ops).2 ∧
    (∀ (os : List Byte → SendResult) (pfd : pollfd) (pflags ioflags k : Nat),
      (xtcp_send os pfd pflags (runOps xtcp_buffer_t.zero ops).1 ioflags).1 = some (k : Int) →
      0 < k → k ≤ (runOps xtcp_buffer_t.zero ops).1.len →
      (xtcp_send os pfd pflags (runOps xtcp_buffer_t.zero ops).1 ioflags).2.1.contents
        = (runOps xtcp_buffer_t.zero ops).1.contents.drop k ∧
      (xtcp_send os pfd pflags (runOps xtcp_buffer_t.zero ops).1 ioflags).2.1.len
        = (runOps xtcp_buffer_t.zero ops).1.len - k ∧
      accepted (xtcp_send os pfd pflags (runOps xtcp_buffer_t.zero ops).1 ioflags).2.2
        = (runOps xtcp_buffer_t.zero ops).1.contents.take k) ∧
    (∀ (os : Nat → RecvResult) (pfd : pollfd) (pflags ioflags n : Nat) (bytes : List Byte),
      (xtcp_recv os pfd pflags (runOps xtcp_buffer_t.zero ops).1 ioflags).2.2
        = [IOEvent.recv pfd.fd n ioflags (RecvResult.data bytes)] →
      bytes.length ≤ CAPACITY - (runOps xtcp_buffer_t.zero ops).1.len →
      (xtcp_recv os pfd pflags (runOps xtcp_buffer_t.zero ops).1 ioflags).2.1.contents
        = (runOps xtcp_buffer_t.zero ops).1.contents ++ bytes ∧
      (xtcp_recv os pfd pflags (runOps xtcp_buffer_t.zero ops).1 ioflags).2.1.len
        = (runOps xtcp_buffer_t.zero ops).1.len + bytes.length) := by
  obtain ⟨hinv, hfifo⟩ := runOps_spec ops xtcp_buffer_t.zero bufInv_zero h
  generalize (runOps xtcp_buffer_t.zero ops).1 = buf at hinv hfifo
  refine ⟨?_, ?_, ?_⟩
  · simpa [xtcp_buffer_t.contents, xtcp_buffer_t.zero] using hfifo
  · intro os pfd pflags ioflags k hret hk hkl
    have hcall : ((pfd.revents &&& pflags ≠ 0 ∨ ioflags &&& MSG_OOB ≠ 0) ∧ buf.len ≠ 0)
        ∧ os buf.contents = SendResult.ret (k : Int) := by
      unfold xtcp_send at hret
      split at hret
      · rename_i hc
        refine ⟨hc, ?_⟩
        cases hres : os buf.contents with
        | sigpipe => rw [hres] at hret; simp at hret
        | ret v =>
          rw [hres] at hret
          dsimp only at hret
          split at hret <;> simp at hret <;> rw [hret]
      · simp at hret
        omega
    have htr : (xtcp_send os pfd pflags buf ioflags).2.2
        = [IOEvent.send pfd.fd buf.contents ioflags (SendResult.ret (k : Int))] := by
      unfold xtcp_send
      rw [if_pos hcall.1, hcall.2]
      dsimp only
      split <;> rfl
    obtain ⟨_, h2, h3, _⟩ := xtcp_send_spec os pfd pflags ioflags buf hinv
      (by rw [hcall.2]; show (k : Int) ≤ (buf.len : Int); omega)
    have hcl : buf.contents.length = buf.len := by
      have := hinv.1; have := hinv.2
      simp [xtcp_buffer_t.contents]; omega
    have hacc : accepted (xtcp_send os pfd pflags buf ioflags).2.2 = buf.contents.take k := by
      rw [htr]; simp [accepted]
    refine ⟨?_, ?_, hacc⟩
    · rw [hacc] at h2
      have := congrArg (List.drop k) h2
      rw [List.drop_append_of_le_length (by simp [hcl]; omega)] at this
      have hlen : (List.take k buf.contents).length = k := by simp [hcl]; omega
      rw [List.drop_of_length_le (by omega)] at this
      simpa using this
    · rw [hacc] at h3
      have hlen : (List.take k buf.contents).length = k := by simp [hcl]; omega
      omega
  · intro os pfd pflags ioflags n bytes hev hfit
    have hres : os (CAPACITY - buf.len) = RecvResult.data bytes := by
      unfold xtcp_recv at hev
      simp only [remain_eq buf.len hinv.2] at hev
      split at hev
      · split at hev <;> simp at hev <;> exact hev.2
      · simp at hev
    obtain ⟨_, h2, h3, _⟩ := xtcp_recv_spec os pfd pflags ioflags buf hinv
      (by rw [hres]; simp [RecvResult.ret]; omega)
    rw [hev] at h2 h3
    simpa [delivered, RecvResult.bytes] using And.intro h2 h3

theorem fifo_byte_fidelity_witness :
    OpsOk xtcp_buffer_t.zero sampleOps ∧
    accepted (runOps xtcp_buffer_t.zero sampleOps).2
        ++ (runOps xtcp_buffer_t.zero sampleOps).1.contents
      = delivered (runOps xtcp_buffer_t.zero sampleOps).2 :=
  ⟨by decide, (fifo_byte_fidelity sampleOps (by decide)).1⟩

/-! ## The flow-control bound -/

theorem xtcp_recv_len_le (os : Nat → RecvResult) (pfd : pollfd) (pflags ioflags : Nat)
    (buf : xtcp_buffer_t) (hl : buf.len ≤ CAPACITY)
    (hos : (os (CAPACITY - buf.len)).ret ≤ ((CAPACITY - buf.len : Nat) : Int)) :
    (xtcp_recv os pfd pflags buf ioflags).2.1.len ≤ CAPACITY := by
  unfold xtcp_recv
  simp only [remain_eq buf.len hl]
  split
  · split
    · show (buf.len + (os (CAPACITY - buf.len)).ret.toNat) % SIZE_MOD ≤ CAPACITY
      unfold SIZE_MOD CAPACITY at *; omega
    · exact hl
  · exact hl

theorem xtcp_send_len_le (os : List Byte → SendResult) (pfd : pollfd) (pflags ioflags : Nat)
    (buf : xtcp_buffer_t) (hl : buf.len ≤ CAPACITY)
    (hos : (os buf.contents).fits (buf.len : Int)) :
    (xtcp_send os pfd pflags buf ioflags).2.1.len ≤ CAPACITY := by
  unfold xtcp_send
  split
  · cases hres : os buf.contents with
    | sigpipe => exact hl
    | ret v =>
      rw [hres] at hos
      have hv : v ≤ (buf.len : Int) := hos
      dsimp only
      split
      · show (SIZE_MOD + buf.len - v.toNat) % SIZE_MOD ≤ CAPACITY
        unfold SIZE_MOD CAPACITY at *; omega
      · exact hl
  · exact hl

theorem xtcp_recv_full (os : Nat → RecvResult) (pfd : pollfd) (pflags ioflags : Nat)
    (buf : xtcp_buffer_t) (hl : buf.len = CAPACITY) :
    xtcp_recv os pfd pflags buf ioflags = (1, buf, []) := by
  unfold xtcp_recv
  simp [hl, SIZE_MOD, CAPACITY]

theorem contents_length_le (buf : xtcp_buffer_t) : buf.contents.length ≤ buf.len := by
  simp [xtcp_buffer_t.contents]

theorem lenInv_buffer (st : PassState) (h : LenInv st) (i : Nat) :
    (st.buffer i).len ≤ CAPACITY := by
  unfold PassState.buffer; split
  · exact h.1
  · exact h.2

theorem setEvents_buffer0 (st : PassState) (i e : Nat) :
    (st.setEvents i e).buffer0 = st.buffer0 := by
  unfold PassState.setEvents; split <;> rfl

theorem setEvents_buffer1 (st : PassState) (i e : Nat) :
    (st.setEvents i e).buffer1 = st.buffer1 := by
  unfold PassState.setEvents; split <;> rfl

theorem setBuffer_lenInv (st : PassState) (h : LenInv st) (i : Nat) (b : xtcp_buffer_t)
    (hb : b.len ≤ CAPACITY) : LenInv (st.setBuffer i b) := by
  unfold PassState.setBuffer; split
  · exact ⟨hb, h.2⟩
  · exact ⟨h.1, hb⟩

theorem setEvents_lenInv (st : PassState) (h : LenInv st) (i e : Nat) :
    LenInv (st.setEvents i e) := by
  unfold LenInv; rw [setEvents_buffer0, setEvents_buffer1]; exact h

theorem fits_mono (r : SendResult) (a b : Int) (h : r.fits a) (hab : a ≤ b) : r.fits b := by
  cases r with
  | sigpipe => trivial
  | ret v => exact Int.le_trans h hab

theorem relay_len_le (w : WakeUp) (hw : w.ok) (pfd pfd2 : pollfd) (i j : Nat)
    (buf : xtcp_buffer_t) (hl : buf.len ≤ CAPACITY) :
    (xtcp_send (w.os_send j) pfd2 POLLSEND
      (xtcp_recv (w.os_recv i) pfd POLLRECV buf 0).2.1 0).2.1.len ≤ CAPACITY := by
  have h1 := xtcp_recv_len_le (w.os_recv i) pfd POLLRECV 0 buf hl (hw.1 i _)
  apply xtcp_send_len_le _ _ _ _ _ h1
  have h2 := hw.2 j (xtcp_recv (w.os_recv i) pfd POLLRECV buf 0).2.1.contents
  have h3 := contents_length_le (xtcp_recv (w.os_recv i) pfd POLLRECV buf 0).2.1
  exact fits_mono _ _ _ h2 (by omega)

theorem passover_body_lenInv (w : WakeUp) (hw : w.ok) (st : PassState) (h : LenInv st)
    (i : Nat) (st1 : PassState) (tr : List IOEvent)
    (hb : passover_body w st i = Step.next st1 tr) : LenInv st1 := by
  unfold passover_body at hb
  split at hb
  · cases hb
  · dsimp only at hb
    split at hb
    · cases hb
    · simp only [Step.next.injEq] at hb
      rw [← hb.1]
      have hrel := relay_len_le w hw (st.fds i) (st.fds (i ^^^ 1)) i (i ^^^ 1) (st.buffer i)
        (lenInv_buffer st h i)
      have h1 := setBuffer_lenInv st h i _ hrel
      split <;> split <;> exact setEvents_lenInv _ (setEvents_lenInv _ h1 _ _) _ _

theorem polled_lenInv (st : PassState) (w : WakeUp) (h : LenInv st) : LenInv (st.polled w) := h

theorem passover_mid_lenInv (w : WakeUp) (hw : w.ok) (st : PassState) (h : LenInv st)
    (i : Nat) : LenInv (passover_mid w st i) :=
  setBuffer_lenInv st h i _
    (xtcp_recv_len_le (w.os_recv i) (st.fds i) POLLRECV 0 (st.buffer i)
      (lenInv_buffer st h i) (hw.1 i _))

theorem passover_states_lenInv (script : List WakeUp) :
    ∀ st : PassState, LenInv st → (∀ w ∈ script, w.ok) →
      ∀ s ∈ passover_states st script, LenInv s := by
  induction script with
  | nil =>
    intro st h _ s hs
    simp [passover_states] at hs
    rw [hs]; exact h
  | cons w ws ih =>
    intro st h hok s hs
    have hw : w.ok := hok w (List.mem_cons_self _ _)
    simp only [passover_states, List.mem_cons] at hs
    rcases hs with hs | hs
    · rw [hs]; exact h
    · split at hs
      · cases h0 : passover_body w (st.polled w) 0 with
        | done v tr => simp [h0] at hs
        | killed tr =>
          simp only [h0, List.mem_singleton] at hs
          rw [hs]; exact passover_mid_lenInv w hw _ (polled_lenInv st w h) 0
        | next st1 tr1 =>
          have hi1 := passover_body_lenInv w hw _ (polled_lenInv st w h) 0 st1 tr1 h0
          simp only [h0, List.mem_cons] at hs
          rcases hs with hs | hs | hs
          · rw [hs]; exact passover_mid_lenInv w hw _ (polled_lenInv st w h) 0
          · rw [hs]; exact hi1
          · cases h1 : passover_body w st1 1 with
            | done v tr => simp [h1] at hs
            | killed tr =>
              simp only [h1, List.mem_singleton] at hs
              rw [hs]; exact passover_mid_lenInv w hw _ hi1 1
            | next st2 tr2 =>
              have hi2 := passover_body_lenInv w hw _ hi1 1 st2 tr2 h1
              simp only [h1, List.mem_cons] at hs
              rcases hs with hs | hs
              · rw [hs]; exact passover_mid_lenInv w hw _ hi1 1
              · exact ih st2 hi2 (fun w' hw' => hok w' (List.mem_cons_of_mem _ hw')) s hs
      · simp at hs

theorem lenInv_init (inbnd upstr : Int) : LenInv (PassState.init inbnd upstr) := by
  simp [LenInv, PassState.init, xtcp_buffer_t.zero]

/-- C2. Flow-control bound: on a buffer with `len ≤ CAPACITY`, `xtcp_recv`
(whose `recv` answer is at most the requested free space) and `xtcp_send`
(whose `send` answer, when it returns, is at most the offered `len`) leave
`len ≤ CAPACITY`, so
every buffer state that `xtcp_passover` goes through from its two
zero-initialised buffers has `len ≤ CAPACITY`; and on a full buffer
(`len = CAPACITY`) `xtcp_recv` makes no system call, whatever `revents` is,
returns 1 and leaves the buffer unchanged. -/
theorem flow_control_bound :
    (∀ (os : Nat → RecvResult) (pfd : pollfd) (pflags ioflags : Nat) (buf : xtcp_buffer_t),
      buf.len ≤ CAPACITY →
      (os (CAPACITY - buf.len)).ret ≤ ((CAPACITY - buf.len : Nat) : Int) →
      (xtcp_recv os pfd pflags buf ioflags).2.1.len ≤ CAPACITY) ∧
    (∀ (os : List Byte → SendResult) (pfd : pollfd) (pflags ioflags : Nat)
      (buf : xtcp_buffer_t),
      buf.len ≤ CAPACITY → (os buf.contents).fits (buf.len : Int) →
      (xtcp_send os pfd pflags buf ioflags).2.1.len ≤ CAPACITY) ∧
    (∀ (inbnd upstr : Int) (script : List WakeUp), (∀ w ∈ script, w.ok) →
      ∀ s ∈ passover_states (PassState.init inbnd upstr) script,
        s.buffer0.len ≤ CAPACITY ∧ s.buffer1.len ≤ CAPACITY) ∧
    (∀ (os : Nat → RecvResult) (pfd : pollfd) (pflags ioflags : Nat) (buf : xtcp_buffer_t),
      buf.len = CAPACITY →
      xtcp_recv os pfd pflags buf ioflags = (1, buf, [])) :=
  ⟨fun os pfd pflags ioflags buf h1 h2 => xtcp_recv_len_le os pfd pflags ioflags buf h1 h2,
   fun os pfd pflags ioflags buf h1 h2 => xtcp_send_len_le os pfd pflags ioflags buf h1 h2,
   fun inbnd upstr script hok s hs =>
     passover_states_lenInv script _ (lenInv_init inbnd upstr) hok s hs,
   fun os pfd pflags ioflags buf h => xtcp_recv_full os pfd pflags ioflags buf h⟩

/-! ## Bit masks -/

theorem clearBits_and_self (e m : Nat) : clearBits e m &&& m = 0 := by
  apply Nat.eq_of_testBit_eq
  intro i
  simp [clearBits, Nat.testBit_xor, Nat.testBit_and]

theorem or_and_self (e m : Nat) : (e ||| m) &&& m = m := by
  apply Nat.eq_of_testBit_eq
  intro i
  simp only [Nat.testBit_or, Nat.testBit_and]
  cases e.testBit i <;> cases m.testBit i <;> rfl

theorem clearBits_and_other (e m k : Nat) (h : m &&& k = 0) :
    clearBits e m &&& k = e &&& k := by
  apply Nat.eq_of_testBit_eq
  intro i
  have := congrArg (fun x => Nat.testBit x i) h
  simp [Nat.testBit_and] at this
  simp [clearBits, Nat.testBit_xor, Nat.testBit_and]
  cases h1 : e.testBit i <;> cases h2 : m.testBit i <;> cases h3 : k.testBit i <;> simp_all

theorem or_and_other (e m k : Nat) (h : m &&& k = 0) : (e ||| m) &&& k = e &&& k := by
  apply Nat.eq_of_testBit_eq
  intro i
  have := congrArg (fun x => Nat.testBit x i) h
  simp [Nat.testBit_and] at this
  simp [Nat.testBit_or, Nat.testBit_and]
  cases h1 : e.testBit i <;> cases h2 : m.testBit i <;> cases h3 : k.testBit i <;> simp_all

/-! ## One body of the `for` loop -/

/-- Body `i` on an exceptional condition of endpoint `i`: both descriptors are
closed and 0 is returned. -/
theorem passover_body_exc (w : WakeUp) (st : PassState) (i : Nat)
    (h : (st.fds i).revents &&& (POLLERR ||| POLLHUP ||| POLLNVAL) ≠ 0) :
    passover_body w st i
      = Step.done 0 [IOEvent.close st.fds0.fd, IOEvent.close st.fds1.fd] := by
  unfold passover_body
  rw [if_pos h]; rfl

theorem xtcp_recv_trace (os : Nat → RecvResult) (pfd : pollfd) (pflags ioflags : Nat)
    (buf : xtcp_buffer_t) :
    closedFds (xtcp_recv os pfd pflags buf ioflags).2.2 = [] ∧
    pollCount (xtcp_recv os pfd pflags buf ioflags).2.2 = 0 := by
  unfold xtcp_recv
  dsimp only
  split
  · split <;> exact ⟨rfl, rfl⟩
  · exact ⟨rfl, rfl⟩

theorem xtcp_send_trace (os : List Byte → SendResult) (pfd : pollfd) (pflags ioflags : Nat)
    (buf : xtcp_buffer_t) :
    closedFds (xtcp_send os pfd pflags buf ioflags).2.2 = [] ∧
    pollCount (xtcp_send os pfd pflags buf ioflags).2.2 = 0 := by
  unfold xtcp_send
  split
  · cases os buf.contents with
    | sigpipe => exact ⟨rfl, rfl⟩
    | ret v => dsimp only; split <;> exact ⟨rfl, rfl⟩
  · exact ⟨rfl, rfl⟩

/-- The process is ended inside `xtcp_send` only by a `send` that raises
`SIGPIPE`. -/
theorem xtcp_send_none (os : List Byte → SendResult) (pfd : pollfd) (pflags ioflags : Nat)
    (buf : xtcp_buffer_t) (h : (xtcp_send os pfd pflags buf ioflags).1 = none) :
    os buf.contents = SendResult.sigpipe := by
  unfold xtcp_send at h
  split at h
  · cases hres : os buf.contents with
    | sigpipe => rfl
    | ret v =>
      rw [hres] at h
      dsimp only at h
      split at h <;> simp at h
  · simp at h

theorem closedFds_append (a b : List IOEvent) :
    closedFds (a ++ b) = closedFds a ++ closedFds b := by
  induction a with
  | nil => rfl
  | cons e a ih => cases e <;> simp [closedFds, ih]

theorem pollCount_append (a b : List IOEvent) :
    pollCount (a ++ b) = pollCount a + pollCount b := by
  induction a with
  | nil => simp [pollCount]
  | cons e a ih => cases e <;> simp [pollCount, ih]; omega

theorem setEvents_fds_fd (st : PassState) (i e k : Nat) :
    ((st.setEvents i e).fds k).fd = (st.fds k).fd ∧
    ((st.setEvents i e).fds k).revents = (st.fds k).revents := by
  unfold PassState.setEvents PassState.fds
  split <;> split <;> exact ⟨rfl, rfl⟩

theorem setBuffer_fds (st : PassState) (i k : Nat) (b : xtcp_buffer_t) :
    (st.setBuffer i b).fds k = st.fds k := by
  unfold PassState.setBuffer PassState.fds
  split <;> split <;> rfl

/-- A body that completes keeps descriptors and `revents`, and makes neither a
`close` nor a `poll` call. -/
theorem passover_body_next_frame (w : WakeUp) (st : PassState) (i : Nat) (st1 : PassState)
    (tr : List IOEvent) (hb : passover_body w st i = Step.next st1 tr) (k : Nat) :
    (st1.fds k).fd = (st.fds k).fd ∧ (st1.fds k).revents = (st.fds k).revents ∧
    closedFds tr = [] ∧ pollCount tr = 0 := by
  unfold passover_body at hb
  split at hb
  · cases hb
  · dsimp only at hb
    split at hb
    · cases hb
    · simp only [Step.next.injEq] at hb
      rw [← hb.1, ← hb.2]
      refine ⟨?_, ?_, ?_, ?_⟩
      · split <;> split <;> simp only [(setEvents_fds_fd _ _ _ _).1, setBuffer_fds]
      · split <;> split <;> simp only [(setEvents_fds_fd _ _ _ _).2, setBuffer_fds]
      · rw [closedFds_append, (xtcp_recv_trace _ _ _ _ _).1, (xtcp_send_trace _ _ _ _ _).1]; rfl
      · rw [pollCount_append, (xtcp_recv_trace _ _ _ _ _).2, (xtcp_send_trace _ _ _ _ _).2]

theorem passover_body_done (w : WakeUp) (st : PassState) (i : Nat) (v : Int)
    (tr : List IOEvent) (hb : passover_body w st i = Step.done v tr) :
    (st.fds i).revents &&& (POLLERR ||| POLLHUP ||| POLLNVAL) ≠ 0 := by
  unfold passover_body at hb
  split at hb
  · assumption
  · dsimp only at hb
    split at hb <;> cases hb

/-- Body `i` ends the process only when the `send` to the peer raises
`SIGPIPE`. -/
theorem passover_body_killed (w : WakeUp) (st : PassState) (i : Nat) (tr : List IOEvent)
    (hb : passover_body w st i = Step.killed tr) :
    ∃ offered, w.os_send (i ^^^ 1) offered = SendResult.sigpipe := by
  unfold passover_body at hb
  split at hb
  · cases hb
  · dsimp only at hb
    split at hb
    · rename_i hnone
      exact ⟨_, xtcp_send_none _ _ _ _ _ hnone⟩
    · cases hb

/-- The sibling path of the exceptional check: when endpoint 0 itself reports
the condition, the wake-up closes both descriptors and returns 0 without any
other call, whatever endpoint 1 reports. -/
theorem passover_for_exc_at_0 (w : WakeUp) (st : PassState)
    (h0 : st.fds0.revents &&& (POLLERR ||| POLLHUP ||| POLLNVAL) ≠ 0) :
    passover_for w st
      = Step.done 0 [IOEvent.close st.fds0.fd, IOEvent.close st.fds1.fd] := by
  unfold passover_for
  rw [passover_body_exc w st 0 h0]

/-- A wake-up with an exceptional condition at either endpoint, when the
`send` to endpoint 1 does not raise `SIGPIPE`: the `for` loop returns 0, having
closed both descriptors and polled no more. -/
theorem passover_for_exc (w : WakeUp) (st : PassState)
    (hsend : ∀ offered, w.os_send 1 offered ≠ SendResult.sigpipe)
    (hx : st.fds0.revents &&& (POLLERR ||| POLLHUP ||| POLLNVAL) ≠ 0 ∨
      st.fds1.revents &&& (POLLERR ||| POLLHUP ||| POLLNVAL) ≠ 0) :
    ∃ tr, passover_for w st = Step.done 0 tr ∧
      closedFds tr = [st.fds0.fd, st.fds1.fd] ∧ pollCount tr = 0 := by
  by_cases h0 : st.fds0.revents &&& (POLLERR ||| POLLHUP ||| POLLNVAL) ≠ 0
  · exact ⟨[IOEvent.close st.fds0.fd, IOEvent.close st.fds1.fd],
      passover_for_exc_at_0 w st h0, rfl, rfl⟩
  · have h1 : st.fds1.revents &&& (POLLERR ||| POLLHUP ||| POLLNVAL) ≠ 0 := by
      rcases hx with hx | hx
      · exact absurd hx h0
      · exact hx
    cases hb : passover_body w st 0 with
    | done v tr => exact absurd (passover_body_done w st 0 v tr hb) h0
    | killed tr =>
      obtain ⟨offered, hk⟩ := passover_body_killed w st 0 tr hb
      exact absurd hk (hsend offered)
    | next st1 tr1 =>
      have hf0 := passover_body_next_frame w st 0 st1 tr1 hb 0
      have hf1 := passover_body_next_frame w st 0 st1 tr1 hb 1
      have e0 : st1.fds0.fd = st.fds0.fd := hf0.1
      have e1 : st1.fds1.fd = st.fds1.fd := hf1.1
      have e2 : st1.fds1.revents = st.fds1.revents := hf1.2.1
      have hx1 : (st1.fds 1).revents &&& (POLLERR ||| POLLHUP ||| POLLNVAL) ≠ 0 := by
        show st1.fds1.revents &&& _ ≠ 0
        rw [e2]; exact h1
      refine ⟨tr1 ++ [IOEvent.close st1.fds0.fd, IOEvent.close st1.fds1.fd], ?_, ?_, ?_⟩
      · unfold passover_for
        rw [hb]; dsimp only
        rw [passover_body_exc w st1 1 hx1]
      · rw [closedFds_append, hf0.2.2.1, e0, e1]; rfl
      · rw [pollCount_append, hf0.2.2.2]; rfl

/-- Close on exception, as far as the code does it: on a wake-up of
`xtcp_passover` (a successful `poll`) whose `revents` for either endpoint has
`POLLERR`, `POLLHUP` or `POLLNVAL`, and on which the `send` to endpoint 1 does
not raise `SIGPIPE`, the function returns 0 in that wake-up, the descriptors
closed are exactly `fds[0].fd` then `fds[1].fd`, and the `poll` that woke it
is its last `poll` call. -/
theorem close_on_exception_when_send_returns (st : PassState) (w : WakeUp)
    (ws : List WakeUp) (hp : w.pollRet ≥ 0)
    (hsend : ∀ offered, w.os_send 1 offered ≠ SendResult.sigpipe)
    (hx : w.revents0 &&& (POLLERR ||| POLLHUP ||| POLLNVAL) ≠ 0 ∨
      w.revents1 &&& (POLLERR ||| POLLHUP ||| POLLNVAL) ≠ 0) :
    (passover_loop st (w :: ws)).1 = Outcome.returned 0 ∧
    closedFds (passover_loop st (w :: ws)).2 = [st.fds0.fd, st.fds1.fd] ∧
    pollCount (passover_loop st (w :: ws)).2 = 1 := by
  obtain ⟨tr, h1, h2, h3⟩ := passover_for_exc w (st.polled w) hsend hx
  unfold passover_loop
  rw [if_pos hp, h1]
  refine ⟨rfl, ?_, ?_⟩
  · simp only [closedFds, h2]; rfl
  · simp only [pollCount, h3]

/-! ## Interest recomputation -/

theorem pollin_pollout_disjoint : POLLRECV &&& POLLOUT = 0 ∧ POLLSEND &&& POLLIN = 0 := by
  decide

/-- Body `i` of the `for` loop, with peer `j`: it leaves `buffer[j]` alone, sets
the read interest of endpoint `i` and the write interest of endpoint `j` from
`buffer[i].len`, and keeps the other two interest bits. -/
theorem passover_body_interest (w : WakeUp) (st : PassState) (i j : Nat)
    (hi : i = 0 ∧ j = 1 ∨ i = 1 ∧ j = 0) (st1 : PassState) (tr : List IOEvent)
    (hb : passover_body w st i = Step.next st1 tr) :
    st1.buffer j = st.buffer j ∧
    ((st1.fds i).events &&& POLLIN ≠ 0 ↔ (st1.buffer i).len ≠ CAPACITY) ∧
    ((st1.fds j).events &&& POLLOUT ≠ 0 ↔ (st1.buffer i).len ≠ 0) ∧
    (st1.fds i).events &&& POLLOUT = (st.fds i).events &&& POLLOUT ∧
    (st1.fds j).events &&& POLLIN = (st.fds j).events &&& POLLIN := by
  have hin : ∀ e, (e ||| POLLRECV) &&& POLLIN ≠ 0 := by
    intro e; rw [show POLLIN = POLLRECV from rfl, or_and_self]; decide
  have hout : ∀ e, (e ||| POLLSEND) &&& POLLOUT ≠ 0 := by
    intro e; rw [show POLLOUT = POLLSEND from rfl, or_and_self]; decide
  have cin : ∀ e, clearBits e POLLRECV &&& POLLIN = 0 := fun e => clearBits_and_self e _
  have cout : ∀ e, clearBits e POLLSEND &&& POLLOUT = 0 := fun e => clearBits_and_self e _
  have k1 : ∀ e, clearBits e POLLRECV &&& POLLOUT = e &&& POLLOUT :=
    fun e => clearBits_and_other e _ _ pollin_pollout_disjoint.1
  have k2 : ∀ e, (e ||| POLLRECV) &&& POLLOUT = e &&& POLLOUT :=
    fun e => or_and_other e _ _ pollin_pollout_disjoint.1
  have k3 : ∀ e, clearBits e POLLSEND &&& POLLIN = e &&& POLLIN :=
    fun e => clearBits_and_other e _ _ pollin_pollout_disjoint.2
  have k4 : ∀ e, (e ||| POLLSEND) &&& POLLIN = e &&& POLLIN :=
    fun e => or_and_other e _ _ pollin_pollout_disjoint.2
  unfold passover_body at hb
  split at hb
  · cases hb
  · dsimp only at hb
    split at hb
    · cases hb
    · rename_i hsome
      clear hsome
      simp only [Step.next.injEq] at hb
      rw [← hb.1]
      rcases hi with ⟨rfl, rfl⟩ | ⟨rfl, rfl⟩
      · simp only [show (0 : Nat) ^^^ 1 = 1 from rfl, PassState.setBuffer,
          PassState.setEvents, PassState.buffer, PassState.fds, if_true, if_false,
          one_ne_zero]
        split <;> split <;> simp_all
      · simp only [show (1 : Nat) ^^^ 1 = 0 from rfl, PassState.setBuffer,
          PassState.setEvents, PassState.buffer, PassState.fds, if_true, if_false,
          one_ne_zero]
        split <;> split <;> simp_all

theorem passover_for_next (w : WakeUp) (st st2 : PassState) (tr : List IOEvent)
    (hfor : passover_for w st = Step.next st2 tr) :
    ∃ st1 tr1 tr2, passover_body w st 0 = Step.next st1 tr1 ∧
      passover_body w st1 1 = Step.next st2 tr2 ∧ tr = tr1 ++ tr2 := by
  unfold passover_for at hfor
  cases h0 : passover_body w st 0 with
  | done v tr0 => rw [h0] at hfor; cases hfor
  | killed tr0 => rw [h0] at hfor; cases hfor
  | next st1 tr1 =>
    rw [h0] at hfor
    dsimp only at hfor
    cases h1 : passover_body w st1 1 with
    | done v tr0 => rw [h1] at hfor; cases hfor
    | killed tr0 => rw [h1] at hfor; cases hfor
    | next st2' tr2 =>
      rw [h1] at hfor
      simp only [Step.next.injEq] at hfor
      exact ⟨st1, tr1, tr2, rfl, by rw [← hfor.1, h1], hfor.2.symm⟩

/-- C6. Interest recomputation: take a wake-up of `xtcp_passover` that
completes without an exceptional condition, in a state whose buffers are
within capacity and with system answers that respect the requests.  Then for
each direction `i` with peer `j = i xor 1`, `POLLIN` is set in `fds[i].events`
for the next `poll` exactly when `buffer[i].len < CAPACITY`, and `POLLOUT` is
set in `fds[j].events` exactly when `buffer[i].len > 0`; and each body of the
`for` loop keeps the `POLLOUT` bit of its own endpoint and the `POLLIN` bit of
its peer, the two bits that belong to the other direction. -/
theorem interest_recomputation (w : WakeUp) (hw : w.ok) (st : PassState) (h : LenInv st)
    (st2 : PassState) (tr : List IOEvent) (hfor : passover_for w st = Step.next st2 tr) :
    (∀ i j : Nat, (i = 0 ∧ j = 1 ∨ i = 1 ∧ j = 0) →
      j = i ^^^ 1 ∧
      ((st2.fds i).events &&& POLLIN ≠ 0 ↔ (st2.buffer i).len < CAPACITY) ∧
      ((st2.fds j).events &&& POLLOUT ≠ 0 ↔ (st2.buffer i).len > 0)) ∧
    (∀ (i j : Nat) (sa sb : PassState) (tb : List IOEvent),
      (i = 0 ∧ j = 1 ∨ i = 1 ∧ j = 0) → passover_body w sa i = Step.next sb tb →
      (sb.fds i).events &&& POLLOUT = (sa.fds i).events &&& POLLOUT ∧
      (sb.fds j).events &&& POLLIN = (sa.fds j).events &&& POLLIN) := by
  obtain ⟨st1, tr1, tr2, h0, h1, _⟩ := passover_for_next w st st2 tr hfor
  have hl1 := passover_body_lenInv w hw st h 0 st1 tr1 h0
  have hl2 := passover_body_lenInv w hw st1 hl1 1 st2 tr2 h1
  obtain ⟨_, a2, a3, _, _⟩ := passover_body_interest w st 0 1 (Or.inl ⟨rfl, rfl⟩) st1 tr1 h0
  obtain ⟨b1, b2, b3, b4, b5⟩ :=
    passover_body_interest w st1 1 0 (Or.inr ⟨rfl, rfl⟩) st2 tr2 h1
  have c0 := lenInv_buffer st2 hl2 0
  have c1 := lenInv_buffer st2 hl2 1
  refine ⟨?_, ?_⟩
  · intro i j hij
    rcases hij with ⟨rfl, rfl⟩ | ⟨rfl, rfl⟩
    · refine ⟨rfl, ?_, ?_⟩
      · rw [b5, b1, a2]; rw [b1] at c0; omega
      · rw [b4, b1, a3]; omega
    · refine ⟨rfl, ?_, ?_⟩
      · rw [b2]; omega
      · rw [b3]; omega
  · intro i j sa sb tb hij hb
    obtain ⟨_, _, _, d4, d5⟩ := passover_body_interest w sa i j hij sb tb hb
    exact ⟨d4, d5⟩

/-! ## The model at sample wake-ups -/

theorem sampleWake_ok : sampleWake.ok := by
  refine ⟨fun i n => ?_, fun i offered => ?_⟩
  · simp only [sampleWake, RecvResult.ret, List.length_replicate]; omega
  · simp only [sampleWake, SendResult.fits]; omega

theorem flow_control_bound_witness :
    (xtcp_buffer_t.zero.len ≤ CAPACITY ∧
      (xtcp_recv (fun _ => RecvResult.data [1, 2, 3]) { fd := 3, events := 5, revents := 1 }
        POLLRECV xtcp_buffer_t.zero 0).2.1.len ≤ CAPACITY) ∧
    ((∀ w ∈ [sampleWake], w.ok) ∧
      sampleState ∈ passover_states (PassState.init 3 4) [sampleWake] ∧
      sampleState.buffer0.len ≤ CAPACITY ∧ sampleState.buffer1.len ≤ CAPACITY) :=
  ⟨⟨by decide, flow_control_bound.1 (fun _ => RecvResult.data [1, 2, 3])
      { fd := 3, events := 5, revents := 1 } POLLRECV 0 xtcp_buffer_t.zero
      (by decide) (by decide)⟩,
   ⟨by simpa using sampleWake_ok, by decide,
    flow_control_bound.2.2.1 3 4 [sampleWake] (by simpa using sampleWake_ok)
      sampleState (by decide)⟩⟩

theorem interest_recomputation_witness :
    sampleWake.ok ∧ LenInv ((PassState.init 3 4).polled sampleWake) ∧
    passover_for sampleWake ((PassState.init 3 4).polled sampleWake)
      = Step.next sampleState (passover_for sampleWake
          ((PassState.init 3 4).polled sampleWake)).trace ∧
    ((sampleState.fds 0).events &&& POLLIN ≠ 0 ↔ (sampleState.buffer 0).len < CAPACITY) ∧
    ((sampleState.fds 1).events &&& POLLOUT ≠ 0 ↔ (sampleState.buffer 0).len > 0) :=
  ⟨sampleWake_ok, by decide, by decide,
    ((interest_recomputation sampleWake sampleWake_ok ((PassState.init 3 4).polled sampleWake)
      (by decide) sampleState
      (passover_for sampleWake ((PassState.init 3 4).polled sampleWake)).trace
      (by decide)).1 0 1 (Or.inl ⟨rfl, rfl⟩)).2⟩

/-- C3, the code at a failing input.  On the first wake-up three octets arrive
from descriptor 3 and descriptor 4 takes two of them, so one octet stays
queued and `POLLOUT` stays registered for descriptor 4.  The peer of
descriptor 4 then closes and resets the connection.  On the second wake-up
`poll` succeeds and endpoint 1 reports `POLLERR` and `POLLHUP` (with `POLLIN`
and `POLLOUT`), but body 0 of the `for` loop runs first: it receives two more
octets and calls `send` on descriptor 4, which raises `SIGPIPE` and ends the
process.  No descriptor is closed by `xtcp_passover` and it does not return. -/
theorem exception_wake_ends_in_sigpipe :
    (brokenPipeWake.pollRet ≥ 0 ∧
      brokenPipeWake.revents1 &&& (POLLERR ||| POLLHUP ||| POLLNVAL) ≠ 0) ∧
    xtcp_passover 3 4 [partialSendWake, brokenPipeWake]
      = (Outcome.killed,
          [IOEvent.setsockopt 3, IOEvent.setsockopt 4, IOEvent.poll 5 5,
            IOEvent.recv 3 512 0 (RecvResult.data [1, 2, 3]),
            IOEvent.send 4 [1, 2, 3] 0 (SendResult.ret 2),
            IOEvent.poll 1 5,
            IOEvent.recv 3 511 0 (RecvResult.data [4, 5]),
            IOEvent.send 4 [3, 4, 5] 0 SendResult.sigpipe]) ∧
    (xtcp_passover 3 4 [partialSendWake, brokenPipeWake]).1 ≠ Outcome.returned 0 ∧
    closedFds (xtcp_passover 3 4 [partialSendWake, brokenPipeWake]).2 = [] := by
  decide

/-- C4, the code at a failing input.  Endpoint 0 is readable and endpoint 1
reports `POLLERR` (with `POLLOUT`): before the exceptional condition of
endpoint 1 is looked at, body 0 of the `for` loop receives three octets from
descriptor 3 and sends them to descriptor 4; only then are both descriptors
closed and 0 returned.  The same holds when the `send` on the descriptor in
error fails with -1: the `recv` and the `send` call are still made first. -/
theorem relay_before_peer_exception :
    errorAtPeerWake.revents1 &&& (POLLERR ||| POLLHUP ||| POLLNVAL) ≠ 0 ∧
    xtcp_passover 3 4 [errorAtPeerWake]
      = (Outcome.returned 0,
          [IOEvent.setsockopt 3, IOEvent.setsockopt 4, IOEvent.poll 5 5,
            IOEvent.recv 3 512 0 (RecvResult.data [1, 2, 3]),
            IOEvent.send 4 [1, 2, 3] 0 (SendResult.ret 3),
            IOEvent.close 3, IOEvent.close 4]) ∧
    xtcp_passover 3 4 [errorAtPeerWakeFailing]
      = (Outcome.returned 0,
          [IOEvent.setsockopt 3, IOEvent.setsockopt 4, IOEvent.poll 5 5,
            IOEvent.recv 3 512 0 (RecvResult.data [1, 2, 3]),
            IOEvent.send 4 [1, 2, 3] 0 (SendResult.ret (-1)),
            IOEvent.close 3, IOEvent.close 4]) := by
  decide

/-- C5, the code at failing inputs.  A `recv` that meets end of stream, a
`recv` that fails and a `send` that fails each leave `xtcp_passover` in its
loop: nothing is closed and the function is back in `poll`. -/
theorem eof_and_io_error_ignored :
    xtcp_passover 3 4 [eofWake]
      = (Outcome.blocked,
          [IOEvent.setsockopt 3, IOEvent.setsockopt 4, IOEvent.poll 5 5,
            IOEvent.recv 3 512 0 RecvResult.eof, IOEvent.poll 1 1]) ∧
    xtcp_passover 3 4 [recvErrorWake]
      = (Outcome.blocked,
          [IOEvent.setsockopt 3, IOEvent.setsockopt 4, IOEvent.poll 5 5,
            IOEvent.recv 3 512 0 (RecvResult.error 104), IOEvent.poll 1 1]) ∧
    xtcp_passover 3 4 [sendErrorWake]
      = (Outcome.blocked,
          [IOEvent.setsockopt 3, IOEvent.setsockopt 4, IOEvent.poll 5 5,
            IOEvent.recv 3 512 0 (RecvResult.data [1, 2, 3]),
            IOEvent.send 4 [1, 2, 3] 0 (SendResult.ret (-1)), IOEvent.poll 1 5]) := by
  decide
/-! ## Candidate fallback -/

theorem xtcp_connect_skip (fd_inbnd : Int) (script : List WakeUp) (pre : List ConnCandidate)
    (next : List ConnCandidate) (hpre : ∀ p ∈ pre, ¬ p.connects) :
    xtcp_connect fd_inbnd script (pre ++ next)
      = ((xtcp_connect fd_inbnd script next).1,
          failedAttempts pre ++ (xtcp_connect fd_inbnd script next).2) := by
  induction pre with
  | nil => rfl
  | cons p pre ih =>
    have hp : ¬ p.connects := hpre p (List.mem_cons_self _ _)
    have ih1 : xtcp_connect fd_inbnd script (pre.append next) = _ :=
      ih (fun q hq => hpre q (List.mem_cons_of_mem _ hq))
    simp only [List.cons_append, xtcp_connect, failedAttempts, failedAttempt]
    by_cases hfam : p.ai_family ≠ AF_INET ∧ p.ai_family ≠ AF_INET6
    · rw [if_pos hfam, if_pos hfam, ih1]; rfl
    · rw [if_neg hfam, if_neg hfam]
      by_cases hs : p.socketRet = -1
      · rw [if_pos hs, if_pos hs, ih1]; rfl
      · rw [if_neg hs, if_neg hs]
        have hc : p.connectRet = -1 := by
          by_contra hc
          apply hp
          refine ⟨?_, hs, hc⟩
          by_cases h4 : p.ai_family = AF_INET
          · exact Or.inl h4
          · by_cases h6 : p.ai_family = AF_INET6
            · exact Or.inr h6
            · exact absurd ⟨h4, h6⟩ hfam
        rw [if_pos hc, ih1]; rfl

theorem xtcp_connect_hit (fd_inbnd : Int) (script : List WakeUp) (c : ConnCandidate)
    (next : List ConnCandidate) (hc : c.connects) :
    xtcp_connect fd_inbnd script (c :: next)
      = (sessionOutcome (xtcp_passover fd_inbnd c.socketRet script).1,
          [ConnEvent.socket c.ai_family c.socketRet,
            ConnEvent.connect c.socketRet c.connectRet,
            ConnEvent.passover fd_inbnd c.socketRet
              (xtcp_passover fd_inbnd c.socketRet script).1
              (xtcp_passover fd_inbnd c.socketRet script).2]
          ++ relayExitEvents (xtcp_passover fd_inbnd c.socketRet script).1) := by
  obtain ⟨hfam, hs, hcn⟩ := hc
  have hfam1 : ¬ (c.ai_family ≠ AF_INET ∧ c.ai_family ≠ AF_INET6) := by
    rintro ⟨h4, h6⟩
    rcases hfam with h | h
    · exact h4 h
    · exact h6 h
  simp only [xtcp_connect]
  rw [if_neg hfam1, if_neg hs, if_neg hcn]
  cases hr : (xtcp_passover fd_inbnd c.socketRet script).1 with
  | returned v =>
    by_cases hv : v = -1
    · simp [hv, relayExit, relayExitEvents, sessionOutcome]
    · simp [hv, relayExit, relayExitEvents, sessionOutcome]
  | exited status => rfl
  | blocked => rfl
  | killed => rfl

theorem passoverCalls_append (a b : List ConnEvent) :
    passoverCalls (a ++ b) = passoverCalls a ++ passoverCalls b := by
  induction a with
  | nil => rfl
  | cons e a ih => cases e <;> simp [passoverCalls, ih]

theorem passoverCalls_failedAttempts (cs : List ConnCandidate) :
    passoverCalls (failedAttempts cs) = [] := by
  induction cs with
  | nil => rfl
  | cons c cs ih =>
    simp only [failedAttempts, passoverCalls_append, ih, List.append_nil]
    unfold failedAttempt
    split
    · rfl
    · split <;> rfl

theorem passoverCalls_relayExitEvents (r : Outcome) :
    passoverCalls (relayExitEvents r) = [] := by
  cases r <;> rfl

/-- C7. Candidate fallback in `xtcp_connect`: when the candidates `pre` before
`c` all fail to connect and `c` connects, the process makes the failed attempts
of `pre` in list order (each socket whose `connect` returned -1 being closed),
then the `socket` and `connect` of `c`, then calls `xtcp_passover` exactly once,
on the inbound descriptor and the socket of `c`; nothing of the later
candidates `post` is tried; and if the relay returns, the exit status is
`EXIT_FAILURE` when it returned -1 and `EXIT_SUCCESS` otherwise (a relay that
stays blocked or is ended by a signal leaves the process so).  When every
candidate fails, `xtcp_passover` is not called and the process reports
`no connectable peer` and exits with `EXIT_FAILURE`. -/
theorem candidate_fallback (fd_inbnd : Int) (script : List WakeUp)
    (pre : List ConnCandidate) (hpre : ∀ p ∈ pre, ¬ p.connects) :
    (∀ (c : ConnCandidate) (post : List ConnCandidate), c.connects →
      (xtcp_connect fd_inbnd script (pre ++ c :: post)).2
        = failedAttempts pre
          ++ [ConnEvent.socket c.ai_family c.socketRet,
              ConnEvent.connect c.socketRet c.connectRet,
              ConnEvent.passover fd_inbnd c.socketRet
                (xtcp_passover fd_inbnd c.socketRet script).1
                (xtcp_passover fd_inbnd c.socketRet script).2]
          ++ relayExitEvents (xtcp_passover fd_inbnd c.socketRet script).1 ∧
      passoverCalls (xtcp_connect fd_inbnd script (pre ++ c :: post)).2
        = [(fd_inbnd, c.socketRet)] ∧
      (xtcp_connect fd_inbnd script (pre ++ c :: post)).1
        = sessionOutcome (xtcp_passover fd_inbnd c.socketRet script).1 ∧
      (∀ ret : Int, (xtcp_passover fd_inbnd c.socketRet script).1 = Outcome.returned ret →
        (xtcp_connect fd_inbnd script (pre ++ c :: post)).1
          = Outcome.exited (if ret = -1 then EXIT_FAILURE else EXIT_SUCCESS))) ∧
    xtcp_connect fd_inbnd script pre
      = (Outcome.exited EXIT_FAILURE,
          failedAttempts pre
            ++ [ConnEvent.printf Diag.no_connectable_peer, ConnEvent.exit EXIT_FAILURE]) ∧
    passoverCalls (xtcp_connect fd_inbnd script pre).2 = [] := by
  refine ⟨?_, ?_, ?_⟩
  · intro c post hc
    rw [xtcp_connect_skip fd_inbnd script pre (c :: post) hpre,
      xtcp_connect_hit fd_inbnd script c post hc]
    refine ⟨by simp, ?_, rfl, ?_⟩
    · simp [passoverCalls_append, passoverCalls_failedAttempts,
        passoverCalls_relayExitEvents, passoverCalls]
    · intro ret hret
      show sessionOutcome (xtcp_passover fd_inbnd c.socketRet script).1 = _
      rw [hret]; rfl
  · have := xtcp_connect_skip fd_inbnd script pre [] hpre
    rw [List.append_nil] at this
    rw [this]; rfl
  · have := xtcp_connect_skip fd_inbnd script pre [] hpre
    rw [List.append_nil] at this
    rw [this]
    simp [passoverCalls_append, passoverCalls_failedAttempts, passoverCalls, xtcp_connect]

theorem candidate_fallback_witness :
    (∀ p ∈ samplePre, ¬ p.connects) ∧ sampleCand.connects ∧
    passoverCalls
        (xtcp_connect 9 [hangupWake] (samplePre ++ sampleCand :: samplePost)).2
      = [(9, sampleCand.socketRet)] :=
  ⟨by decide, by decide,
    ((candidate_fallback 9 [hangupWake] samplePre (by decide)).1 sampleCand samplePost
      (by decide)).2.1⟩

/-! ## Arguments of `main` -/

theorem resolved_append (a b : List MainEvent) :
    resolved (a ++ b) = resolved a ++ resolved b := by
  induction a with
  | nil => rfl
  | cons e a ih => cases e <;> simp [resolved, ih]

theorem resolved_main_args (argv : List String) : resolved (main_args argv).2 = [] := by
  unfold main_args
  dsimp only
  split <;> rfl

theorem main_args_extra (prog h s a b : String) (extra : List String) :
    main_args (prog :: h :: s :: a :: b :: extra)
      = ((main_args [prog, h, s, a, b]).1,
          if extra = [] then [] else [MainEvent.printf Diag.ignoring_unneeded_arguments]) := by
  cases extra with
  | nil => rfl
  | cons e extra =>
    have h5 : (prog :: h :: s :: a :: b :: e :: extra).length > 5 := by
      simp only [List.length_cons]; omega
    simp only [main_args, h5, if_true]
    rfl

/-- C9. Argument mapping in `main`, for `n` arguments after the program name:
with `n < 2` `main` returns `EXIT_FAILURE` and resolves no address; with
`n = 2`, `3`, `4` the last two arguments become `connaddr` and `connserv`, the
ones before them `bndserv` (`n = 3`) or `bndaddr` then `bndserv` (`n = 4`), and
what is not supplied stays `NULL`; with `n > 4` the globals, the result of
`main` and the addresses it resolves are those of the first four arguments
alone.  Whenever enough arguments are given, `main` resolves
`connaddr`/`connserv` first and then, if that succeeded, `bndaddr`/`bndserv`. -/
theorem argument_mapping (prog : String) :
    (∀ (args : List String) (env : MainEnv), args.length < 2 →
      (main (prog :: args) env).1 = Outcome.returned EXIT_FAILURE ∧
      resolved (main (prog :: args) env).2 = []) ∧
    (∀ a b : String, (main_args [prog, a, b]).1
      = { bndaddr := none, bndserv := none, connaddr := some a, connserv := some b,
          argc := 3 }) ∧
    (∀ s a b : String, (main_args [prog, s, a, b]).1
      = { bndaddr := none, bndserv := some s, connaddr := some a, connserv := some b,
          argc := 3 }) ∧
    (∀ h s a b : String, (main_args [prog, h, s, a, b]).1
      = { bndaddr := some h, bndserv := some s, connaddr := some a, connserv := some b,
          argc := 3 }) ∧
    (∀ (h s a b : String) (extra : List String) (env : MainEnv),
      (main_args (prog :: h :: s :: a :: b :: extra)).1 = (main_args [prog, h, s, a, b]).1 ∧
      (main (prog :: h :: s :: a :: b :: extra) env).1 = (main [prog, h, s, a, b] env).1 ∧
      resolved (main (prog :: h :: s :: a :: b :: extra) env).2
        = resolved (main [prog, h, s, a, b] env).2) ∧
    (∀ (argv : List String) (env : MainEnv), 3 ≤ (main_args argv).1.argc →
      resolved (main argv env).2
          = [((main_args argv).1.connaddr, (main_args argv).1.connserv)] ∨
      resolved (main argv env).2
          = [((main_args argv).1.connaddr, (main_args argv).1.connserv),
             ((main_args argv).1.bndaddr, (main_args argv).1.bndserv)]) := by
  have hmain : ∀ (argv : List String) (env : MainEnv), 3 ≤ (main_args argv).1.argc →
      resolved (main argv env).2
          = [((main_args argv).1.connaddr, (main_args argv).1.connserv)] ∨
      resolved (main argv env).2
          = [((main_args argv).1.connaddr, (main_args argv).1.connserv),
             ((main_args argv).1.bndaddr, (main_args argv).1.bndserv)] := by
    intro argv env h3
    simp only [main, resolved_append, resolved_main_args, List.nil_append]
    unfold main_run
    dsimp only
    rw [if_neg (by omega)]
    split
    · left; rfl
    · right
      split
      · rfl
      · split
        · split <;> rfl
        · rfl
        · rfl
        · rfl
  refine ⟨?_, fun a b => rfl, fun s a b => rfl, fun h s a b => rfl, ?_, hmain⟩
  · intro args env hlen
    have hargc : (main_args (prog :: args)).1.argc < 3 := by
      match args, hlen with
      | [], _ => simp [main_args]
      | [_], _ => simp [main_args]
    simp only [main, resolved_append, resolved_main_args, List.nil_append]
    unfold main_run
    rw [if_pos hargc]
    exact ⟨rfl, rfl⟩
  · intro h s a b extra env
    have hx := main_args_extra prog h s a b extra
    have h1 : (main_args (prog :: h :: s :: a :: b :: extra)).1
        = (main_args [prog, h, s, a, b]).1 := by rw [hx]
    refine ⟨h1, ?_, ?_⟩
    · simp only [main, h1]
    · simp only [main, resolved_append, resolved_main_args, List.nil_append, h1]

theorem argument_mapping_witness :
    shortArgs.length < 2 ∧
    (main (progName :: shortArgs) guardEnv).1 = Outcome.returned EXIT_FAILURE ∧
    resolved (main (progName :: shortArgs) guardEnv).2 = [] :=
  ⟨by decide, (argument_mapping progName).1 shortArgs guardEnv (by decide)⟩

/-! ## The accept loop -/

theorem listen_for_idle (w : ListenWake) (fds : List pollfd) (rest : List pollfd) :
    ∀ (i : Nat) (x : Int), (∀ k, k < i + rest.length → w.revents k &&& POLLIN = 0) →
      listen_for w fds i rest x = (Scan.left x, []) := by
  induction rest with
  | nil => intro i x _; rfl
  | cons pfd rest ih =>
    intro i x h
    have hi : w.revents i &&& POLLIN = 0 := h i (by simp)
    rw [listen_for, if_pos hi]
    exact ih (i + 1) x (fun k hk => h k (by simp only [List.length_cons]; omega))

theorem accept_loop_idle (fds : List pollfd) (w : ListenWake) (ws : List ListenWake)
    (hw : w.pollRet ≥ 0) (hidle : ∀ i, i < fds.length → w.revents i &&& POLLIN = 0) :
    accept_loop fds (w :: ws) = (Outcome.returned (-1), [ListenEvent.poll fds.length]) := by
  have h := listen_for_idle w fds fds 0 0 (fun k hk => hidle k (by omega))
  rw [accept_loop, if_pos hw, h]
  rfl

theorem accept_loop_continues (fds : List pollfd) (pre : List ListenWake)
    (ws : List ListenWake) (hpre : ∀ p ∈ pre, p.continues fds) :
    (accept_loop fds (pre ++ ws)).1 = (accept_loop fds ws).1 := by
  induction pre with
  | nil => rfl
  | cons p pre ih =>
    obtain ⟨hp, hx⟩ := hpre p (List.mem_cons_self _ _)
    have ih1 := ih (fun q hq => hpre q (List.mem_cons_of_mem _ hq))
    rw [List.cons_append, accept_loop, if_pos hp]
    rcases hs : listen_for p fds 0 fds 0 with ⟨sc, tr⟩
    rw [hs] at hx
    cases sc with
    | returned v => exact absurd hx id
    | child o => exact absurd hx id
    | left x =>
      dsimp only at hx ⊢
      rw [if_neg hx]
      exact ih1

theorem main_args_argc (argv : List String) (h : 3 ≤ argv.length) :
    (main_args argv).1.argc = 3 := by
  match argv, h with
  | [_, _, _], _ => rfl
  | [_, _, _, _], _ => rfl
  | [_, _, _, _, _], _ => rfl
  | _ :: _ :: _ :: _ :: _ :: _ :: rest, _ =>
    have h5 : rest.length + 1 + 1 + 1 + 1 + 1 + 1 > 5 := by omega
    simp [main_args, h5]

theorem main_of_listen_returned (argv : List String) (env : MainEnv)
    (hargs : 3 ≤ argv.length) (hconn : env.connInfo = 0) (hbnd : env.bndInfo = 0)
    (hl : (xtcp_listen env.addrs_bnd env.script).1 = Outcome.returned (-1)) :
    (main argv env).1 = Outcome.returned EXIT_FAILURE := by
  have h3 := main_args_argc argv hargs
  simp only [main, main_run, h3, hconn, hbnd, xtcp_getaddrinfo, hl]
  rfl

/-- C8 as stated fails: with one IPv4 listener, a first wake-up that accepts a
connection and a second, successful `poll` on which the listener is not
readable, the accept loop is left through the `if( !x ) break;` guard, with no
`fork` or `poll` failure, `xtcp_listen` returns -1 and `main` returns
`EXIT_FAILURE`, which is not 0. -/
theorem orderly_end_exit_status_counterexample :
    idleWake.pollRet ≥ 0 ∧ idleWake.revents 0 &&& POLLIN = 0 ∧
    xtcp_listen guardEnv.addrs_bnd guardEnv.script
      = (Outcome.returned (-1),
          [ListenEvent.socket 2 3, ListenEvent.bind 3 0, ListenEvent.getsockname 3 0,
            ListenEvent.listen 3 0 0, ListenEvent.poll 1, ListenEvent.accept 3 7,
            ListenEvent.fork 100, ListenEvent.close 7, ListenEvent.poll 1]) ∧
    (main sampleArgv guardEnv).1 = Outcome.returned EXIT_FAILURE ∧
    (main sampleArgv guardEnv).1 ≠ Outcome.returned 0 := by
  decide

/-- C8, amended.  When the accept loop of `xtcp_listen` ends through the
no-listener-ready guard, that is after wake-ups that each kept the loop going
comes a wake-up whose `poll` succeeds and on which no listener has `POLLIN`,
`xtcp_listen` returns -1 and, both address resolutions having succeeded, `main`
returns `EXIT_FAILURE`. -/
theorem guard_end_exit_status (argv : List String) (env : MainEnv)
    (pre : List ListenWake) (w : ListenWake) (post : List ListenWake)
    (hargs : 3 ≤ argv.length) (hconn : env.connInfo = 0) (hbnd : env.bndInfo = 0)
    (hscript : env.script = pre ++ w :: post)
    (hpre : ∀ p ∈ pre, p.continues (listen_fds (listen_setup env.addrs_bnd (-1, -1)).1))
    (hw : w.pollRet ≥ 0)
    (hidle : ∀ i, i < (listen_fds (listen_setup env.addrs_bnd (-1, -1)).1).length →
      w.revents i &&& POLLIN = 0) :
    (xtcp_listen env.addrs_bnd env.script).1 = Outcome.returned (-1) ∧
    (main argv env).1 = Outcome.returned EXIT_FAILURE := by
  have hl : (xtcp_listen env.addrs_bnd env.script).1 = Outcome.returned (-1) := by
    simp only [xtcp_listen, hscript]
    rw [accept_loop_continues _ pre (w :: post) hpre, accept_loop_idle _ w post hw hidle]
  exact ⟨hl, main_of_listen_returned argv env hargs hconn hbnd hl⟩

theorem guard_end_exit_status_witness :
    (xtcp_listen guardEnv.addrs_bnd guardEnv.script).1 = Outcome.returned (-1) ∧
    (main sampleArgv guardEnv).1 = Outcome.returned EXIT_FAILURE :=
  guard_end_exit_status sampleArgv guardEnv [busyWake] idleWake []
    (by decide) rfl rfl rfl (by decide) (by decide) (by decide)

/-! ## One accept per wake-up -/

theorem forkCount_append (a b : List ListenEvent) :
    forkCount (a ++ b) = forkCount a + forkCount b := by
  induction a with
  | nil => simp [forkCount]
  | cons e a ih => cases e <;> simp [forkCount, ih]; omega

theorem forkCount_acceptsOf (w : ListenWake) (fds : List pollfd) :
    ∀ i, forkCount (acceptsOf w i fds) = 0 := by
  induction fds with
  | nil => intro i; rfl
  | cons pfd rest ih =>
    intro i
    rw [acceptsOf, forkCount_append, ih]
    split <;> rfl

theorem listen_for_stops (w : ListenWake) (fds : List pollfd) (pfd : pollfd)
    (after : List pollfd) (before : List pollfd) :
    ∀ (i : Nat) (x0 : Int),
      (∀ k, k < before.length → w.revents (i + k) &&& POLLIN = 0 ∨ w.acceptRet (i + k) = -1) →
      w.revents (i + before.length) &&& POLLIN ≠ 0 →
      w.acceptRet (i + before.length) ≠ -1 →
      0 < w.forkRet (i + before.length) →
      ∃ x, x0 < x ∧
        listen_for w fds i (before ++ pfd :: after) x0
          = (Scan.left x,
              acceptsOf w i before
                ++ [ListenEvent.accept pfd.fd (w.acceptRet (i + before.length)),
                    ListenEvent.fork (w.forkRet (i + before.length)),
                    ListenEvent.close (w.acceptRet (i + before.length))]) := by
  induction before with
  | nil =>
    intro i x0 _ hin hacc hfork
    simp only [List.length_nil, Nat.add_zero] at hin hacc hfork
    refine ⟨x0 + 1, by omega, ?_⟩
    simp only [List.nil_append, listen_for, acceptsOf, List.length_nil, Nat.add_zero]
    rw [if_neg hin, if_neg hacc, if_neg (by omega), if_neg (by omega)]
  | cons b before ih =>
    intro i x0 hb hin hacc hfork
    have e : i + (b :: before).length = (i + 1) + before.length := by
      simp only [List.length_cons]; omega
    rw [e] at hin hacc hfork ⊢
    have hb1 : ∀ k, k < before.length →
        w.revents (i + 1 + k) &&& POLLIN = 0 ∨ w.acceptRet (i + 1 + k) = -1 := by
      intro k hk
      have := hb (k + 1) (by simp only [List.length_cons]; omega)
      rwa [show i + (k + 1) = i + 1 + k by omega] at this
    have hb0 := hb 0 (by simp)
    rw [Nat.add_zero] at hb0
    simp only [List.cons_append, listen_for, acceptsOf]
    by_cases hr : w.revents i &&& POLLIN = 0
    · obtain ⟨x, hx, heq⟩ := ih (i + 1) x0 hb1 hin hacc hfork
      have heq1 : listen_for w fds (i + 1) (before.append (pfd :: after)) x0 = _ := heq
      refine ⟨x, hx, ?_⟩
      rw [if_pos hr, if_pos hr, heq1]; rfl
    · have ha : w.acceptRet i = -1 := by
        rcases hb0 with h | h
        · exact absurd h hr
        · exact h
      obtain ⟨x, hx, heq⟩ := ih (i + 1) (x0 + 1) hb1 hin hacc hfork
      have heq1 : listen_for w fds (i + 1) (before.append (pfd :: after)) (x0 + 1) = _ := heq
      refine ⟨x, by omega, ?_⟩
      rw [if_neg hr, if_neg hr, if_pos ha, heq1, ha]; rfl

/-- The scan of one wake-up stops at the first dispatch: when the listeners
before `pfd` are not readable or their `accept` fails, and `pfd` is readable
and its `accept` and `fork` succeed (in the listening process), the scan makes
the `accept` calls of the readable listeners before `pfd`, then the `accept`,
the `fork` and the `close` for `pfd`, and nothing for the listeners after it;
there is exactly one `fork`, and the loop goes on to `poll` again. -/
theorem scan_stops_at_first_dispatch (w : ListenWake) (before : List pollfd) (pfd : pollfd)
    (after : List pollfd)
    (hbefore : ∀ k, k < before.length →
      w.revents k &&& POLLIN = 0 ∨ w.acceptRet k = -1)
    (hin : w.revents before.length &&& POLLIN ≠ 0)
    (hacc : w.acceptRet before.length ≠ -1)
    (hfork : 0 < w.forkRet before.length) :
    (∃ x, x ≠ 0 ∧
      (listen_for w (before ++ pfd :: after) 0 (before ++ pfd :: after) 0).1 = Scan.left x) ∧
    (listen_for w (before ++ pfd :: after) 0 (before ++ pfd :: after) 0).2
      = acceptsOf w 0 before
        ++ [ListenEvent.accept pfd.fd (w.acceptRet before.length),
            ListenEvent.fork (w.forkRet before.length),
            ListenEvent.close (w.acceptRet before.length)] ∧
    forkCount (listen_for w (before ++ pfd :: after) 0 (before ++ pfd :: after) 0).2 = 1 ∧
    (w.pollRet ≥ 0 → w.continues (before ++ pfd :: after)) := by
  obtain ⟨x, hx, heq⟩ := listen_for_stops w (before ++ pfd :: after) pfd after before 0 0
    (by simpa using hbefore) (by simpa using hin) (by simpa using hacc) (by simpa using hfork)
  simp only [Nat.zero_add] at heq
  rw [heq]
  refine ⟨⟨x, by omega, rfl⟩, rfl, ?_, ?_⟩
  · rw [forkCount_append, forkCount_acceptsOf]; rfl
  · intro hp
    refine ⟨hp, ?_⟩
    rw [heq]
    show x ≠ 0
    omega

/-- C10, the code at a failing input.  With an IPv4 listener (descriptor 3)
and an IPv6 listener (descriptor 4) both readable on one wake-up, and `accept`
and `fork` succeeding, the accept loop makes one `accept` (on descriptor 3) and
one `fork`, leaves the `for` loop by the `break` of the parent branch and is
back in `poll`: descriptor 4 gets no `accept` on that wake-up.  Over five such
wake-ups descriptor 3 is accepted five times and descriptor 4 never.  On the
sibling path, where the `accept` on descriptor 3 fails, the loop does go on to
descriptor 4 in the same wake-up. -/
theorem second_listener_not_accepted :
    (busyWake.revents 0 &&& POLLIN ≠ 0 ∧ busyWake.revents 1 &&& POLLIN ≠ 0) ∧
    xtcp_listen dualStack [busyWake]
      = (Outcome.blocked,
          [ListenEvent.socket 2 3, ListenEvent.bind 3 0, ListenEvent.getsockname 3 0,
            ListenEvent.listen 3 0 0,
            ListenEvent.socket 10 4, ListenEvent.bind 4 0, ListenEvent.getsockname 4 0,
            ListenEvent.listen 4 0 0,
            ListenEvent.poll 2, ListenEvent.accept 3 7, ListenEvent.fork 100,
            ListenEvent.close 7, ListenEvent.poll 2]) ∧
    (acceptCount (xtcp_listen dualStack [busyWake]).2 = 1 ∧
      forkCount (xtcp_listen dualStack [busyWake]).2 = 1) ∧
    (acceptsOn 3 (xtcp_listen dualStack (List.replicate 5 busyWake)).2 = 5 ∧
      acceptsOn 4 (xtcp_listen dualStack (List.replicate 5 busyWake)).2 = 0) ∧
    xtcp_listen dualStack [firstAcceptFailsWake]
      = (Outcome.blocked,
          [ListenEvent.socket 2 3, ListenEvent.bind 3 0, ListenEvent.getsockname 3 0,
            ListenEvent.listen 3 0 0,
            ListenEvent.socket 10 4, ListenEvent.bind 4 0, ListenEvent.getsockname 4 0,
            ListenEvent.listen 4 0 0,
            ListenEvent.poll 2, ListenEvent.accept 3 (-1), ListenEvent.accept 4 8,
            ListenEvent.fork 101, ListenEvent.close 8, ListenEvent.poll 2]) := by
  decide

end Xtcp
